import Mathlib

/-!
# QSkinny gradient materials and combo box

A shallow embedding of `src/nodes/QskGradientMaterial.cpp` (colour-ramp cache,
material geometry, uniform buffers, dispatch and comparison) and of the option
handling of `src/controls/QskComboBox.cpp`.

* A pointer is an `Option Nat`: `none` is `nullptr`, `some n` is the object
  with identity `n`.
* A member function that mutates its object returns the new object next to
  its C++ return value.
* Numbers come in two readings. In the namespace `Qsk` itself a `qreal` or
  `float` is an exact rational: the arithmetic is taken exactly, without
  rounding and without NaN. In the namespace `Qsk.Fp` a `qreal` is an IEEE 754
  double and a `float` an IEEE 754 single: every operation rounds, a double
  stored into a float is rounded again, and NaN and the infinities are
  values.
-/

namespace Qsk

/-! ## Data model -/

/-- The enum `QGradient::Spread`. -/
inductive Spread where
  | PadSpread
  | ReflectSpread
  | RepeatSpread
deriving DecidableEq, Repr

/-- The numeric value of a `QGradient::Spread` enumerator, as added to the hash. -/
def Spread.toNat : Spread → Nat
  | .PadSpread => 0
  | .ReflectSpread => 1
  | .RepeatSpread => 2

/-- Modelled from the spec: the class QskGradientStop is declared outside the
sources at hand. A stop is a (position, colour) pair; the colour is kept as the
value of `rgb()`, alpha included, and two stops are equal iff both parts are. -/
structure QskGradientStop where
  position : ℚ
  rgb : Nat
deriving DecidableEq

/-- Modelled from the spec: `QskGradientStops` is an ordered sequence of stops,
compared element by element. -/
abbrev QskGradientStops := List QskGradientStop

/-- A `const void*` / `const QRhi*` rendering context handle. -/
abbrev RhiPtr := Option Nat

/-- A `ColorRamp*`: the identity of a texture object, or `nullptr`. -/
abbrev ColorRampPtr := Option Nat

/-- The enum `QSGTexture::WrapMode`. -/
inductive WrapMode where
  | Repeat
  | ClampToEdge
  | MirroredRepeat
deriving DecidableEq, Repr

/-- The enum `QSGTexture::Filtering`. -/
inductive Filtering where
  | None
  | Nearest
  | Linear
deriving DecidableEq, Repr

/-- The function `ColorRamp::wrapMode`. -/
def ColorRamp.wrapMode (spread : Spread) : WrapMode :=
  match spread with
  | .RepeatSpread => WrapMode.Repeat
  | .ReflectSpread => WrapMode.MirroredRepeat
  | _ => WrapMode.ClampToEdge

/-- A `ColorRamp` texture object as its constructor leaves it. The image is
`QskRgb::colorTable( 256, stops )`; that function is outside the sources at
hand, so the image is kept as its two arguments. -/
structure ColorRamp where
  imageSize : Nat
  imageStops : QskGradientStops
  horizontalWrapMode : WrapMode
  verticalWrapMode : WrapMode
  filtering : Filtering
deriving DecidableEq

/-- The constructor `ColorRamp::ColorRamp( stops, spread )`. -/
def ColorRamp.create (stops : QskGradientStops) (spread : Spread) : ColorRamp :=
  let wrapMode := ColorRamp.wrapMode spread
  { imageSize := 256
    imageStops := stops
    horizontalWrapMode := wrapMode
    verticalWrapMode := wrapMode
    filtering := Filtering.Linear }

/-- The class `ColorRampHashKey`. -/
structure ColorRampHashKey where
  rhi : RhiPtr
  stops : QskGradientStops
  spread : Spread
deriving DecidableEq

/-- The operator `ColorRampHashKey::operator==`. -/
def ColorRampHashKey.eq (self other : ColorRampHashKey) : Bool :=
  self.rhi == other.rhi && self.spread == other.spread && self.stops == other.stops

/-- The function `qHash( const ColorRampHashKey&, size_t seed )`, with `size_t`
of 64 bits. -/
def qHash (key : ColorRampHashKey) (seed : Nat) : Nat :=
  key.stops.foldl (fun valus stop => (valus + stop.rgb) % 2 ^ 64)
    ((seed + key.spread.toNat) % 2 ^ 64)

/-- The table `QHash< ColorRampHashKey, ColorRamp* >`: its nodes in order. -/
abbrev QHash := List (ColorRampHashKey × ColorRampPtr)

/-- The test `same_key` of a node: the hashes agree and `operator==` holds.
Both hashes are taken with the seed of the table, here 0. -/
def QHash.same_key (a b : ColorRampHashKey) : Bool :=
  qHash a 0 == qHash b 0 && a.eq b

/-- The lookup `QHash::findNode`: the value of the first node matching `key`. -/
def QHash.findNode : QHash → ColorRampHashKey → Option ColorRampPtr
  | [], _ => none
  | e :: t, key => if QHash.same_key e.1 key then some e.2 else QHash.findNode t key

/-- The assignment `table[ key ] = value`: the matching node gets the value, or
a node is created. -/
def QHash.assign : QHash → ColorRampHashKey → ColorRampPtr → QHash
  | [], key, value => [(key, value)]
  | e :: t, key, value =>
      if QHash.same_key e.1 key then (e.1, value) :: t else e :: QHash.assign t key value

/-- The read `table[ key ]` through the non-const `operator[]`: an absent key
gets a node with a default-constructed (null) value. -/
def QHash.index (table : QHash) (key : ColorRampHashKey) : ColorRampPtr × QHash :=
  match QHash.findNode table key with
  | some value => (value, table)
  | none => (none, QHash.assign table key none)

/-- The class `ColorRampCache`, together with the part of the heap it owns:
`heap` lists every `ColorRamp` constructed so far (the object with identity
`n` is `heap[n]`, so `new` yields identity `heap.length`), and `deleted` the
identities released by `delete`. -/
structure ColorRampCache where
  m_hashTable : QHash
  m_rhiTable : List RhiPtr
  heap : List ColorRamp
  deleted : List Nat
deriving DecidableEq

/-- The cache as `new ColorRampCache()` leaves it in `instance()`. -/
def ColorRampCache.create : ColorRampCache :=
  { m_hashTable := [], m_rhiTable := [], heap := [], deleted := [] }

/-- The function `ColorRampCache::colorRamp`. Registering `cleanupRhi` with
the context (`addCleanupCallback`) acts on the context object only; the cache
side of it is the entry in `m_rhiTable`. -/
def ColorRampCache.colorRamp (c : ColorRampCache) (rhi : RhiPtr)
    (stops : QskGradientStops) (spread : Spread) : ColorRampPtr × ColorRampCache :=
  let key : ColorRampHashKey := { rhi := rhi, stops := stops, spread := spread }
  let r := QHash.index c.m_hashTable key
  let texture := r.1
  if texture = none then
    let texture : ColorRampPtr := some c.heap.length
    let heap := c.heap ++ [ColorRamp.create stops spread]
    let table := QHash.assign r.2 key texture
    let rhiTable :=
      if rhi ≠ none then
        if ¬ (rhi ∈ c.m_rhiTable) then c.m_rhiTable ++ [rhi] else c.m_rhiTable
      else c.m_rhiTable
    (texture, { m_hashTable := table, m_rhiTable := rhiTable, heap := heap,
                deleted := c.deleted })
  else
    (texture, { c with m_hashTable := r.2 })

/-- The loop of `ColorRampCache::cleanupRhi` over the table: a node whose key
has the context gets its value deleted and is erased, any other node is kept.
Returns the remaining nodes and the deleted pointers. -/
def QHash.eraseRhi : QHash → RhiPtr → QHash × List ColorRampPtr
  | [], _ => ([], [])
  | e :: t, rhi =>
      let r := QHash.eraseRhi t rhi
      if e.1.rhi = rhi then (r.1, e.2 :: r.2) else (e :: r.1, r.2)

/-- The function `ColorRampCache::cleanupRhi`, on the singleton passed as `c`.
Deleting a null pointer releases nothing. -/
def ColorRampCache.cleanupRhi (c : ColorRampCache) (rhi : RhiPtr) : ColorRampCache :=
  let r := QHash.eraseRhi c.m_hashTable rhi
  { m_hashTable := r.1
    m_rhiTable := c.m_rhiTable.filter (fun p => p ≠ rhi)
    heap := c.heap
    deleted := c.deleted ++ r.2.filterMap id }

/-- The textures the table points to. -/
def QHash.textures (table : QHash) : List Nat :=
  table.filterMap (fun e => e.2)

/-- Well-formed cache states, as the allocator and the table keep them: no two
nodes have the same key or the same texture, no node holds a null pointer,
every texture in the table is a constructed object that has not been deleted,
and only constructed objects have been deleted. -/
def ColorRampCache.WF (c : ColorRampCache) : Prop :=
  c.m_hashTable.Pairwise (fun a b => a.1 ≠ b.1 ∧ a.2 ≠ b.2)
    ∧ (∀ e ∈ c.m_hashTable, e.2 ≠ none)
    ∧ (∀ t ∈ QHash.textures c.m_hashTable, t < c.heap.length ∧ t ∉ c.deleted)
    ∧ (∀ t ∈ c.deleted, t < c.heap.length)

instance (c : ColorRampCache) : Decidable c.WF := by
  unfold ColorRampCache.WF; infer_instance

/-- The number of nodes of the table whose key is `key`. -/
def QHash.countKey (table : QHash) (key : ColorRampHashKey) : Nat :=
  (table.filter (fun e => e.1 = key)).length

/-! ## Geometry and gradient descriptors -/

/-- The class `QPointF`. -/
structure QPointF where
  x : ℚ
  y : ℚ
deriving DecidableEq

/-- The class `QRectF`; `left()` is `x()` and `top()` is `y()`. -/
structure QRectF where
  x : ℚ
  y : ℚ
  width : ℚ
  height : ℚ
deriving DecidableEq

/-- The accessor `QRectF::left`. -/
def QRectF.left (r : QRectF) : ℚ := r.x

/-- The accessor `QRectF::top`. -/
def QRectF.top (r : QRectF) : ℚ := r.y

/-- The class `QVector2D`, compared component by component. -/
structure QVector2D where
  x : ℚ
  y : ℚ
deriving DecidableEq

/-- The class `QVector4D`, compared component by component. -/
structure QVector4D where
  x : ℚ
  y : ℚ
  z : ℚ
  w : ℚ
deriving DecidableEq

/-- Modelled from the spec: the class QskLinearDirection is declared outside the
sources at hand. The direction is a start point and a delta vector, both as
fractions of the bounding rectangle; the source reads the first with `start()`
and the second with `stop()`. -/
structure QskLinearDirection where
  start : QPointF
  stop : QPointF
deriving DecidableEq

/-- Modelled from the spec: the class QskRadialDirection is declared outside the
sources at hand: a fractional center and a fractional radius. -/
structure QskRadialDirection where
  center : QPointF
  radius : ℚ
deriving DecidableEq

/-- Modelled from the spec: the class QskConicDirection is declared outside the
sources at hand: a fractional center, a start angle and a span angle in
degrees. -/
structure QskConicDirection where
  center : QPointF
  startAngle : ℚ
  spanAngle : ℚ
deriving DecidableEq

/-- Modelled from the spec: the enum QskGradient::Type is declared outside the
sources at hand. The source names the kinds Linear, Radial and Conic and
treats any other value as invalid; `Other v` is a value that is none of the
three. -/
inductive GradientType where
  | Linear
  | Radial
  | Conic
  | Other (value : Nat)
deriving DecidableEq, Repr

/-- Modelled from the spec: the class QskGradient is declared outside the
sources at hand. Its fields are what the accessors `type()`, `stops()`,
`spread()`, `linearDirection()`, `radialDirection()` and `conicDirection()`
return. -/
structure QskGradient where
  type : GradientType
  stops : QskGradientStops
  spread : Spread
  linearDirection : QskLinearDirection
  radialDirection : QskRadialDirection
  conicDirection : QskConicDirection
deriving DecidableEq

/-- A rational truncated toward zero. -/
def truncate (q : ℚ) : ℤ :=
  if 0 ≤ q then ⌊q⌋ else ⌈q⌉

/-- The C library function `fmod` on exact numbers: `x - n * y` where `n` is
`x / y` truncated toward zero, so the result has the sign of `x`. (The source
calls it with `y = 360` only.) -/
def fmod (x y : ℚ) : ℚ :=
  x - (truncate (x / y) : ℚ) * y

/-! ## Materials -/

/-- The state of the base class `QskGradientMaterial` (its header is outside
the sources at hand): the fixed gradient type and the stops and spread behind
`stops()`, `setStops()`, `spread()` and `setSpread()`. -/
structure QskGradientMaterial where
  m_gradientType : GradientType
  m_stops : QskGradientStops
  m_spread : Spread
deriving DecidableEq

/-- The class `LinearMaterial`. -/
structure LinearMaterial extends QskGradientMaterial where
  m_gradientVector : QVector4D
deriving DecidableEq

/-- The class `RadialMaterial`. -/
structure RadialMaterial extends QskGradientMaterial where
  m_center : QVector2D
  m_radius : QVector2D
deriving DecidableEq

/-- The class `ConicMaterial`. -/
structure ConicMaterial extends QskGradientMaterial where
  m_center : QVector2D
  m_start : ℚ
  m_span : ℚ
deriving DecidableEq

/-- The function `LinearMaterial::setGradient` with the arithmetic taken exactly
(every number a rational, no rounding, no NaN): the change flag and the
material after the call. The same function in the floating-point arithmetic
of the code is `Fp.LinearMaterial.setGradient`. -/
def LinearMaterial.setGradient (self : LinearMaterial) (rect : QRectF)
    (gradient : QskGradient) : Bool × LinearMaterial :=
  let s0 : Bool × LinearMaterial := (false, self)
  let s1 : Bool × LinearMaterial :=
    if gradient.stops ≠ s0.2.m_stops then (true, { s0.2 with m_stops := gradient.stops })
    else s0
  let s2 : Bool × LinearMaterial :=
    if gradient.spread ≠ s1.2.m_spread then (true, { s1.2 with m_spread := gradient.spread })
    else s1
  let dir := gradient.linearDirection
  let vector : QVector4D :=
    { x := rect.left + dir.start.x * rect.width
      y := rect.top + dir.start.y * rect.height
      z := dir.stop.x * rect.width
      w := dir.stop.y * rect.height }
  let s3 : Bool × LinearMaterial :=
    if s2.2.m_gradientVector ≠ vector then (true, { s2.2 with m_gradientVector := vector })
    else s2
  s3

/-- The function `RadialMaterial::setGradient` with the arithmetic taken exactly
(every number a rational, no rounding, no NaN): the change flag and the
material after the call. The same function in the floating-point arithmetic
of the code is `Fp.RadialMaterial.setGradient`. -/
def RadialMaterial.setGradient (self : RadialMaterial) (rect : QRectF)
    (gradient : QskGradient) : Bool × RadialMaterial :=
  let s0 : Bool × RadialMaterial := (false, self)
  let s1 : Bool × RadialMaterial :=
    if gradient.stops ≠ s0.2.m_stops then (true, { s0.2 with m_stops := gradient.stops })
    else s0
  let s2 : Bool × RadialMaterial :=
    if gradient.spread ≠ s1.2.m_spread then (true, { s1.2 with m_spread := gradient.spread })
    else s1
  let dir := gradient.radialDirection
  let pos : QVector2D :=
    { x := rect.left + dir.center.x * rect.width
      y := rect.top + dir.center.y * rect.height }
  let radius : QVector2D :=
    { x := dir.radius * rect.width
      y := dir.radius * rect.height }
  let s3 : Bool × RadialMaterial :=
    if pos ≠ s2.2.m_center ∨ s2.2.m_radius ≠ radius then
      (true, { s2.2 with m_center := pos, m_radius := radius })
    else s2
  s3

/-- The function `ConicMaterial::setGradient` with the arithmetic taken exactly
(every number a rational, no rounding, no NaN): the change flag and the
material after the call. The same function in the floating-point arithmetic
of the code is `Fp.ConicMaterial.setGradient`. -/
def ConicMaterial.setGradient (self : ConicMaterial) (rect : QRectF)
    (gradient : QskGradient) : Bool × ConicMaterial :=
  let s0 : Bool × ConicMaterial := (false, self)
  let s1 : Bool × ConicMaterial :=
    if gradient.stops ≠ s0.2.m_stops then (true, { s0.2 with m_stops := gradient.stops })
    else s0
  let s2 : Bool × ConicMaterial :=
    if gradient.spread ≠ s1.2.m_spread then (true, { s1.2 with m_spread := gradient.spread })
    else s1
  let dir := gradient.conicDirection
  let center : QVector2D :=
    { x := rect.left + dir.center.x * rect.width
      y := rect.top + dir.center.y * rect.height }
  let start0 : ℚ := fmod dir.startAngle 360 / 360
  let start : ℚ := if start0 < 0 then start0 + 1 else start0
  let span : ℚ := fmod dir.spanAngle 360 / 360
  let s3 : Bool × ConicMaterial :=
    if center ≠ s2.2.m_center then (true, { s2.2 with m_center := center })
    else s2
  let s4 : Bool × ConicMaterial :=
    if start ≠ s3.2.m_start ∨ span ≠ s3.2.m_span then
      (true, { s3.2 with m_start := start, m_span := span })
    else s3
  s4

/-- The constructor `LinearMaterial::LinearMaterial`: a null vector, and the
base class with no stops and (as in `QGradient`) the pad spread. -/
def LinearMaterial.create : LinearMaterial :=
  { m_gradientType := GradientType.Linear, m_stops := [], m_spread := Spread.PadSpread
    m_gradientVector := { x := 0, y := 0, z := 0, w := 0 } }

/-- The constructor `RadialMaterial::RadialMaterial`. -/
def RadialMaterial.create : RadialMaterial :=
  { m_gradientType := GradientType.Radial, m_stops := [], m_spread := Spread.PadSpread
    m_center := { x := 0, y := 0 }, m_radius := { x := 0, y := 0 } }

/-- The constructor `ConicMaterial::ConicMaterial`, with the member
initialisers `m_start = 0.0` and `m_span = 1.0`. -/
def ConicMaterial.create : ConicMaterial :=
  { m_gradientType := GradientType.Conic, m_stops := [], m_spread := Spread.PadSpread
    m_center := { x := 0, y := 0 }, m_start := 0, m_span := 1 }

/-! ## The geometry named in the statements -/

/-- The vector `LinearMaterial::setGradient` computes from `rect` and the
linear direction of `gradient`. -/
def linearGeometry (rect : QRectF) (gradient : QskGradient) : QVector4D :=
  { x := rect.x + gradient.linearDirection.start.x * rect.width
    y := rect.y + gradient.linearDirection.start.y * rect.height
    z := gradient.linearDirection.stop.x * rect.width
    w := gradient.linearDirection.stop.y * rect.height }

/-- The center and radius `RadialMaterial::setGradient` computes from `rect`
and the radial direction of `gradient`. -/
def radialGeometry (rect : QRectF) (gradient : QskGradient) : QVector2D × QVector2D :=
  ({ x := rect.x + gradient.radialDirection.center.x * rect.width
     y := rect.y + gradient.radialDirection.center.y * rect.height },
   { x := gradient.radialDirection.radius * rect.width
     y := gradient.radialDirection.radius * rect.height })

/-- The remainder of `a` modulo 360 that is never negative, as a fraction of a
rotation: the spec's `(a mod 360)/360`. -/
def rotationFraction (a : ℚ) : ℚ :=
  (a - 360 * (⌊a / 360⌋ : ℚ)) / 360

/-- The center, start and span `ConicMaterial::setGradient` computes from
`rect` and the conic direction of `gradient`. -/
def conicGeometry (rect : QRectF) (gradient : QskGradient) : QVector2D × ℚ × ℚ :=
  ({ x := rect.x + gradient.conicDirection.center.x * rect.width
     y := rect.y + gradient.conicDirection.center.y * rect.height },
   (if fmod gradient.conicDirection.startAngle 360 / 360 < 0
      then fmod gradient.conicDirection.startAngle 360 / 360 + 1
      else fmod gradient.conicDirection.startAngle 360 / 360),
   fmod gradient.conicDirection.spanAngle 360 / 360)

/-- A call on the cache: a lookup or the teardown callback of a context. -/
inductive ColorRampCache.Call where
  | colorRamp (rhi : RhiPtr) (stops : QskGradientStops) (spread : Spread)
  | cleanupRhi (rhi : RhiPtr)

/-- The cache after a sequence of calls. -/
def ColorRampCache.after (c : ColorRampCache) : List ColorRampCache.Call → ColorRampCache
  | [] => c
  | .colorRamp rhi stops spread :: rest => (c.colorRamp rhi stops spread).2.after rest
  | .cleanupRhi rhi :: rest => (c.cleanupRhi rhi).after rest

/-! ## Uniform buffers of the RHI shaders -/

/-- The bytes of a `QByteArray`, in order. -/
abbrev QByteArray := List Nat

/-- The representation of a `float` in memory: four bytes for every value.
Which four bytes is left to the machine. -/
structure FloatLayout where
  bytes : ℚ → List Nat
  size : ∀ q, (bytes q).length = 4

/-- The class `QMatrix4x4`: the 16 floats behind `constData()`. -/
structure QMatrix4x4 where
  m : Fin 16 → ℚ

/-- The memory `QMatrix4x4::constData` points to: the 16 floats in a row. -/
def QMatrix4x4.constData (layout : FloatLayout) (matrix : QMatrix4x4) : List Nat :=
  (List.ofFn matrix.m).flatMap layout.bytes

/-- The memory of a `QVector2D`: its two floats in a row. -/
def QVector2D.bytes (layout : FloatLayout) (v : QVector2D) : List Nat :=
  layout.bytes v.x ++ layout.bytes v.y

/-- The memory of a `QVector4D`: its four floats in a row. -/
def QVector4D.bytes (layout : FloatLayout) (v : QVector4D) : List Nat :=
  layout.bytes v.x ++ layout.bytes v.y ++ layout.bytes v.z ++ layout.bytes v.w

/-- The library function `memcpy( data + offset, src, n )` on a buffer that
holds the `n` bytes from `offset` on, which `Q_ASSERT( size() >= 84 )`
demands of every call in the shaders. -/
def memcpy (data : QByteArray) (offset : Nat) (src : List Nat) (n : Nat) : QByteArray :=
  data.take offset ++ src.take n ++ data.drop (offset + n)

/-- The part of `RenderState` the shaders read, with the buffer behind
`uniformData()`. -/
structure RenderState where
  isMatrixDirty : Bool
  isOpacityDirty : Bool
  combinedMatrix : QMatrix4x4
  opacity : ℚ
  uniformData : QByteArray
  rhi : RhiPtr

/-- The function `LinearShaderRhi::updateUniformData`: the change flag and the
buffer after the call. A null `oldMaterial` is `none`. -/
def LinearShaderRhi.updateUniformData (layout : FloatLayout) (state : RenderState)
    (matNew : LinearMaterial) (matOld : Option LinearMaterial) : Bool × QByteArray :=
  let s0 : Bool × QByteArray := (false, state.uniformData)
  let s1 : Bool × QByteArray :=
    if state.isMatrixDirty then
      (true, memcpy s0.2 0 (state.combinedMatrix.constData layout) 64)
    else s0
  let s2 : Bool × QByteArray :=
    if (match matOld with
        | none => true
        | some old => decide (matNew.m_gradientVector ≠ old.m_gradientVector)) then
      (true, memcpy s1.2 64 (matNew.m_gradientVector.bytes layout) 16)
    else s1
  let s3 : Bool × QByteArray :=
    if state.isOpacityDirty then (true, memcpy s2.2 80 (layout.bytes state.opacity) 4)
    else s2
  s3

/-- The function `RadialShaderRhi::updateUniformData`: the change flag and the
buffer after the call. -/
def RadialShaderRhi.updateUniformData (layout : FloatLayout) (state : RenderState)
    (matNew : RadialMaterial) (matOld : Option RadialMaterial) : Bool × QByteArray :=
  let s0 : Bool × QByteArray := (false, state.uniformData)
  let s1 : Bool × QByteArray :=
    if state.isMatrixDirty then
      (true, memcpy s0.2 0 (state.combinedMatrix.constData layout) 64)
    else s0
  let s2 : Bool × QByteArray :=
    if (match matOld with
        | none => true
        | some old => decide (matNew.m_center ≠ old.m_center)) then
      (true, memcpy s1.2 64 (matNew.m_center.bytes layout) 8)
    else s1
  let s3 : Bool × QByteArray :=
    if (match matOld with
        | none => true
        | some old => decide (matNew.m_radius ≠ old.m_radius)) then
      (true, memcpy s2.2 72 (matNew.m_radius.bytes layout) 8)
    else s2
  let s4 : Bool × QByteArray :=
    if state.isOpacityDirty then (true, memcpy s3.2 80 (layout.bytes state.opacity) 4)
    else s3
  s4

/-- The function `ConicShaderRhi::updateUniformData`: the change flag and the
buffer after the call. -/
def ConicShaderRhi.updateUniformData (layout : FloatLayout) (state : RenderState)
    (matNew : ConicMaterial) (matOld : Option ConicMaterial) : Bool × QByteArray :=
  let s0 : Bool × QByteArray := (false, state.uniformData)
  let s1 : Bool × QByteArray :=
    if state.isMatrixDirty then
      (true, memcpy s0.2 0 (state.combinedMatrix.constData layout) 64)
    else s0
  let s2 : Bool × QByteArray :=
    if (match matOld with
        | none => true
        | some old => decide (matNew.m_center ≠ old.m_center)) then
      (true, memcpy s1.2 64 (matNew.m_center.bytes layout) 8)
    else s1
  let s3 : Bool × QByteArray :=
    if (match matOld with
        | none => true
        | some old => decide (matNew.m_start ≠ old.m_start)) then
      (true, memcpy s2.2 72 (layout.bytes matNew.m_start) 4)
    else s2
  let s4 : Bool × QByteArray :=
    if (match matOld with
        | none => true
        | some old => decide (matNew.m_span ≠ old.m_span)) then
      (true, memcpy s3.2 76 (layout.bytes matNew.m_span) 4)
    else s3
  let s5 : Bool × QByteArray :=
    if state.isOpacityDirty then (true, memcpy s4.2 80 (layout.bytes state.opacity) 4)
    else s4
  s5

/-- An object behind a `QskGradientMaterial*`: an instance of one of the three
material classes. -/
inductive Material where
  | linear (m : LinearMaterial)
  | radial (m : RadialMaterial)
  | conic (m : ConicMaterial)
deriving DecidableEq

/-- The member `m_gradientType` of the object. -/
def Material.gradientType : Material → GradientType
  | .linear m => m.m_gradientType
  | .radial m => m.m_gradientType
  | .conic m => m.m_gradientType

/-- The function `QskGradientMaterial::createMaterial`; `none` is `nullptr`. -/
def QskGradientMaterial.createMaterial (gradientType : GradientType) : Option Material :=
  match gradientType with
  | .Linear => some (.linear LinearMaterial.create)
  | .Radial => some (.radial RadialMaterial.create)
  | .Conic => some (.conic ConicMaterial.create)
  | _ => none

/-- The function `QskGradientMaterial::updateGradient` with `Q_ASSERT` compiled
out: the change flag and the object after the call. A `static_cast` to a
class the object is not an instance of has no defined result: `none`. -/
def QskGradientMaterial.updateGradient (self : Material) (rect : QRectF)
    (gradient : QskGradient) : Option (Bool × Material) :=
  if gradient.type ≠ self.gradientType then some (false, self)
  else
    match gradient.type with
    | .Linear =>
        match self with
        | .linear material =>
            some ((material.setGradient rect gradient).1,
              .linear (material.setGradient rect gradient).2)
        | _ => none
    | .Radial =>
        match self with
        | .radial material =>
            some ((material.setGradient rect gradient).1,
              .radial (material.setGradient rect gradient).2)
        | _ => none
    | .Conic =>
        match self with
        | .conic material =>
            some ((material.setGradient rect gradient).1,
              .conic (material.setGradient rect gradient).2)
        | _ => none
    | _ => some (false, self)

/-- Modelled from the spec: `QSGMaterial::compare` belongs to Qt, outside the
sources at hand. It is the generic comparison of two objects by their
addresses: zero for one and the same object, non-zero for two objects. -/
def QSGMaterial.compare (selfAddress otherAddress : Nat) : Int :=
  if selfAddress < otherAddress then -1
  else if otherAddress < selfAddress then 1
  else 0

/-- The function `GradientMaterial::compare`, on two objects given by address
and state. -/
def GradientMaterial.compare (selfAddress : Nat) (self : QskGradientMaterial)
    (otherAddress : Nat) (mat : QskGradientMaterial) : Int :=
  if self.m_spread = mat.m_spread ∧ self.m_stops = mat.m_stops then 0
  else QSGMaterial.compare selfAddress otherAddress

/-- The function `LinearMaterial::compare`. -/
def LinearMaterial.compare (selfAddress : Nat) (self : LinearMaterial)
    (otherAddress : Nat) (mat : LinearMaterial) : Int :=
  if self.m_gradientVector ≠ mat.m_gradientVector then
    QSGMaterial.compare selfAddress otherAddress
  else
    GradientMaterial.compare selfAddress self.toQskGradientMaterial
      otherAddress mat.toQskGradientMaterial

/-- The function `RadialMaterial::compare`. -/
def RadialMaterial.compare (selfAddress : Nat) (self : RadialMaterial)
    (otherAddress : Nat) (mat : RadialMaterial) : Int :=
  if self.m_center ≠ mat.m_center ∨ self.m_radius ≠ mat.m_radius then
    QSGMaterial.compare selfAddress otherAddress
  else
    GradientMaterial.compare selfAddress self.toQskGradientMaterial
      otherAddress mat.toQskGradientMaterial

/-- The Qt function `qFuzzyIsNull` for doubles. -/
def qFuzzyIsNull (d : ℚ) : Bool :=
  decide (|d| ≤ 1 / 1000000000000)

/-- The Qt function `qFuzzyCompare` for doubles. -/
def qFuzzyCompare (p1 p2 : ℚ) : Bool :=
  decide (|p1 - p2| * 1000000000000 ≤ min |p1| |p2|)

/-- Modelled from the spec: qskFuzzyCompare is declared in QskFunctions.h,
outside the sources at hand. It is the fuzzy-equal check of two numbers: Qt's
`qFuzzyCompare`, with numbers close to zero compared by `qFuzzyIsNull`. -/
def qskFuzzyCompare (value1 value2 : ℚ) : Bool :=
  if qFuzzyIsNull value1 then qFuzzyIsNull value2
  else if qFuzzyIsNull value2 then false
  else qFuzzyCompare value1 value2

/-- The function `ConicMaterial::compare`. -/
def ConicMaterial.compare (selfAddress : Nat) (self : ConicMaterial)
    (otherAddress : Nat) (mat : ConicMaterial) : Int :=
  if self.m_center ≠ mat.m_center
      ∨ qskFuzzyCompare self.m_start mat.m_start = true
      ∨ qskFuzzyCompare self.m_span mat.m_span = true then
    QSGMaterial.compare selfAddress otherAddress
  else
    GradientMaterial.compare selfAddress self.toQskGradientMaterial
      otherAddress mat.toQskGradientMaterial

/-! ## The combo box -/

/-- A `QskGraphic`, kept as a handle; the handle 0 is the null graphic
`QskGraphic()`. -/
abbrev QskGraphic := Nat

/-- The class `Option` of QskComboBox.cpp; an empty `graphicSource` is the
empty `QUrl`. -/
structure ComboOption where
  graphicSource : String
  text : String
  graphic : QskGraphic
deriving DecidableEq

/-- The constructor `Option( const QskGraphic&, const QString& )`. -/
def ComboOption.ofGraphic (graphic : QskGraphic) (text : String) : ComboOption :=
  { graphicSource := "", text := text, graphic := graphic }

/-- The constructor `Option( const QUrl&, const QString& )`; `loadGraphic` is
`Qsk::loadGraphic`, which asks the graphic providers of the application. -/
def ComboOption.ofSource (loadGraphic : String → QskGraphic) (graphicSource text : String) :
    ComboOption :=
  { graphicSource := graphicSource
    text := text
    graphic := if graphicSource ≠ "" then loadGraphic graphicSource else 0 }

/-- A `QVariant` made from a graphic or from a text. -/
inductive QVariant where
  | graphic (value : QskGraphic)
  | text (value : String)
deriving DecidableEq

/-- The conversion `QVariant::toString`. -/
def QVariant.toString : QVariant → String
  | .text value => value
  | .graphic _ => ""

/-- The conversion `QVariant::value< QskGraphic >`. -/
def QVariant.toGraphic : QVariant → QskGraphic
  | .graphic value => value
  | .text _ => 0

/-- The state of a `QskComboBox`: the members of `PrivateData` the functions
below use. Their calls of `update()`, `resetImplicitSize()` and the signals
they emit act on the host framework only and leave these members alone. -/
structure QskComboBox where
  options : List ComboOption
  placeholderText : String
  currentIndex : Int
deriving DecidableEq

/-- The combo box as its constructor leaves it. -/
def QskComboBox.create : QskComboBox :=
  { options := [], placeholderText := "", currentIndex := -1 }

/-- A result of `int` arithmetic, wrapped into the 32 bit range. -/
def wrapInt (x : Int) : Int :=
  (x + 2 ^ 31) % 2 ^ 32 - 2 ^ 31

/-- The function `QskComboBox::count`. -/
def QskComboBox.count (self : QskComboBox) : Int :=
  self.options.length

/-- The function `QskComboBox::setCurrentIndex`. -/
def QskComboBox.setCurrentIndex (self : QskComboBox) (index : Int) : QskComboBox :=
  if self.currentIndex ≠ index then { self with currentIndex := index } else self

/-- The function `QskComboBox::clear`. -/
def QskComboBox.clear (self : QskComboBox) : QskComboBox :=
  if ¬ self.options.isEmpty then { self with options := [] } else self

/-- The function `QskComboBox::addOption( const QskGraphic&, const QString& )`. -/
def QskComboBox.addOptionGraphic (self : QskComboBox) (graphic : QskGraphic) (text : String) :
    QskComboBox :=
  { self with options := self.options ++ [ComboOption.ofGraphic graphic text] }

/-- The function `QskComboBox::addOption( const QUrl&, const QString& )`, which
the overloads for a text and for a source string call. -/
def QskComboBox.addOption (loadGraphic : String → QskGraphic) (self : QskComboBox)
    (graphicSource text : String) : QskComboBox :=
  { self with options := self.options ++ [ComboOption.ofSource loadGraphic graphicSource text] }

/-- The function `QskComboBox::optionAt`. -/
def QskComboBox.optionAt (self : QskComboBox) (index : Int) : List QVariant :=
  if index < 0 ∨ index ≥ self.count then []
  else
    match self.options.get? index.toNat with
    | some option => [QVariant.graphic option.graphic, QVariant.text option.text]
    | none => []

/-- The function `QskComboBox::currentText`; `none` when `at( 1 )` is outside
the list. -/
def QskComboBox.currentText (self : QskComboBox) : Option String :=
  if self.currentIndex ≥ 0 then
    let option := self.optionAt self.currentIndex
    (option.get? 1).map QVariant.toString
  else some self.placeholderText

/-- The function `QskComboBox::graphic`; `none` when `at( 0 )` is outside the
list. -/
def QskComboBox.graphic (self : QskComboBox) : Option QskGraphic :=
  if self.currentIndex ≥ 0 then
    let option := self.optionAt self.currentIndex
    (option.get? 0).map QVariant.toGraphic
  else some 0

/-- The function `qskTraverseOptions`. -/
def qskTraverseOptions (comboBox : QskComboBox) (steps : Int) : QskComboBox :=
  let count := comboBox.count
  if count = 0 then comboBox
  else
    let index := comboBox.currentIndex
    let steps := if index = -1 ∧ steps < 0 then wrapInt (steps + 1) else steps
    let nextIndex := Int.tmod (wrapInt (index + steps)) count
    let nextIndex := if nextIndex < 0 then wrapInt (nextIndex + count) else nextIndex
    if nextIndex ≠ index then comboBox.setCurrentIndex nextIndex else comboBox

/-- A call on the combo box that changes its options or its current index. -/
inductive QskComboBox.Call where
  | addOption (graphicSource text : String)
  | addOptionGraphic (graphic : QskGraphic) (text : String)
  | clear
  | setCurrentIndex (index : Int)

/-- The combo box after a sequence of calls. -/
def QskComboBox.after (loadGraphic : String → QskGraphic) (self : QskComboBox) :
    List QskComboBox.Call → QskComboBox
  | [] => self
  | .addOption graphicSource text :: rest =>
      (QskComboBox.addOption loadGraphic self graphicSource text).after loadGraphic rest
  | .addOptionGraphic graphic text :: rest =>
      (self.addOptionGraphic graphic text).after loadGraphic rest
  | .clear :: rest => self.clear.after loadGraphic rest
  | .setCurrentIndex index :: rest => (self.setCurrentIndex index).after loadGraphic rest

/-! ## Concrete inputs -/

/-- A cache that has served the legacy pipeline (null context) and the
contexts 1 and 2, all with the same stops and spread. -/
def exampleCache : ColorRampCache :=
  (((ColorRampCache.create.colorRamp none [⟨0, 255⟩, ⟨1, 0⟩] Spread.PadSpread).2.colorRamp
    (some 1) [⟨0, 255⟩, ⟨1, 0⟩] Spread.PadSpread).2.colorRamp
    (some 2) [⟨0, 255⟩, ⟨1, 0⟩] Spread.PadSpread).2

/-- The rectangle (0, 0, 100, 50). -/
def exampleRect : QRectF :=
  { x := 0, y := 0, width := 100, height := 50 }

/-- A gradient with two stops, a linear direction from (0, 0) with delta
(1, 0), a radial direction around the middle, and a conic direction around
the middle that starts at -90 degrees and spans a full turn of 360 degrees. -/
def exampleGradient (type : GradientType) : QskGradient :=
  { type := type
    stops := [⟨0, 255⟩, ⟨1, 0⟩]
    spread := Spread.PadSpread
    linearDirection := { start := ⟨0, 0⟩, stop := ⟨1, 0⟩ }
    radialDirection := { center := ⟨1 / 2, 1 / 2⟩, radius := 1 / 2 }
    conicDirection := { center := ⟨1 / 2, 1 / 2⟩, startAngle := -90, spanAngle := 360 } }

/-- A float layout for the examples: sign, numerator and denominator of the
number, byte by byte. -/
def exampleLayout : FloatLayout :=
  { bytes := fun q => [if q < 0 then 1 else 0, q.num.natAbs % 256, q.den % 256, q.den / 256 % 256]
    size := fun _ => rfl }

/-- A render state with a buffer of 100 bytes, all 7, where only the opacity
is dirty. -/
def exampleStateOpacity : RenderState :=
  { isMatrixDirty := false
    isOpacityDirty := true
    combinedMatrix := { m := fun i => if i.val % 5 = 0 then 1 else 0 }
    opacity := 1 / 2
    uniformData := List.replicate 100 7
    rhi := some 1 }

/-- The same render state with matrix and opacity dirty. -/
def exampleStateAll : RenderState :=
  { exampleStateOpacity with isMatrixDirty := true }

/-- A conic material with the center of a fresh one, the given start and
span, no stops and the pad spread. -/
def exampleConic (start span : ℚ) : ConicMaterial :=
  { ConicMaterial.create with m_start := start, m_span := span }

/-- The steps `qskTraverseOptions` goes from the index: one step more when
there is no selection (index -1) and the steps go backwards. -/
def traverseSteps (index steps : Int) : Int :=
  if index = -1 ∧ steps < 0 then steps + 1 else steps

/-- A combo box with the three options a, b and c and no selection. -/
def exampleComboBox : QskComboBox :=
  QskComboBox.create.after (fun _ => 0)
    [.addOption "" "a", .addOption "" "b", .addOptionGraphic 5 "c"]

/-- A combo box that got its current index set to 0 before any option was
added. -/
def exampleComboBoxEmpty : QskComboBox :=
  QskComboBox.create.after (fun _ => 0) [.setCurrentIndex 0]

/-- A combo box whose only option was selected and then cleared away. -/
def exampleComboBoxCleared : QskComboBox :=
  QskComboBox.create.after (fun _ => 0) [.addOption "" "a", .setCurrentIndex 0, .clear]

/-! ## Floating-point arithmetic

The materials compute their geometry in `qreal`, which is `double` (IEEE 754
binary64), and store it in `float`s (binary32). The definitions of this part
follow that arithmetic: every operation on doubles rounds its exact result to
the nearest double, ties to even, a double stored in a `float` is rounded to
the nearest float, and NaN and the infinities behave as IEEE 754 says. (Each
operation is taken to round on its own: no fused multiply-add and no extended
precision.) -/

namespace Fp

/-- A value of a floating-point type: NaN, an infinity, or a finite number.
The two zeros `0.0` and `-0.0`, which compare equal and give the same result
in every operation used here, are the one value `fin 0`. -/
inductive Num where
  | nan
  | inf (negative : Bool)
  | fin (value : ℚ)
deriving DecidableEq

/-- A binary floating-point format: the number of significand bits and the
smallest and largest exponent of a normal number. -/
structure Format where
  prec : Nat
  emin : Int
  emax : Int

/-- The format of `float`. -/
def binary32 : Format := { prec := 24, emin := -126, emax := 127 }

/-- The format of `double`. -/
def binary64 : Format := { prec := 53, emin := -1022, emax := 1023 }

/-- The binary logarithm of `n`, rounded down, by halving at most `fuel` times. -/
def log2Fuel : Nat → Nat → Nat
  | 0, _ => 0
  | fuel + 1, n => if 2 ≤ n then log2Fuel fuel (n / 2) + 1 else 0

/-- The binary logarithm of `n`, rounded down (0 for `n = 0`). -/
def log2 (n : Nat) : Nat := log2Fuel n n

/-- The exponent of the positive fraction `n / d`: the `e` with
`2 ^ e ≤ n / d < 2 ^ (e + 1)`. -/
def exponent (n d : Nat) : Int :=
  let e0 : Int := (log2 n : Int) - (log2 d : Int)
  if 0 ≤ e0 then
    if 2 ^ e0.toNat * d ≤ n then e0 else e0 - 1
  else
    if d ≤ n * 2 ^ (-e0).toNat then e0 else e0 - 1

/-- The fraction `n / d` rounded to the nearest natural number, a tie to the
even one. -/
def roundHalfEven (n d : Nat) : Nat :=
  if 2 * (n % d) < d then n / d
  else if d < 2 * (n % d) then n / d + 1
  else if n / d % 2 = 0 then n / d
  else n / d + 1

/-- The power `2 ^ u` for an integer `u`. -/
def pow2 (u : Int) : ℚ :=
  if 0 ≤ u then ((2 ^ u.toNat : Nat) : ℚ) else 1 / ((2 ^ (-u).toNat : Nat) : ℚ)

/-- The magnitude of the positive fraction `n / d` rounded into a format, to
nearest and ties to even: the significand has `prec` bits at the exponent of
the fraction, or fewer below the smallest normal exponent (gradual
underflow). -/
def roundMagnitude (fmt : Format) (n d : Nat) : ℚ :=
  let e := max (exponent n d) fmt.emin
  let u := e - ((fmt.prec : Int) - 1)
  let m :=
    if 0 ≤ u then roundHalfEven n (d * 2 ^ u.toNat)
    else roundHalfEven (n * 2 ^ (-u).toNat) d
  (m : ℚ) * pow2 u

/-- An exact result rounded into a format, to nearest and ties to even; a
result whose rounded magnitude reaches `2 ^ (emax + 1)` is an infinity. -/
def round (fmt : Format) (q : ℚ) : Num :=
  if q = 0 then Num.fin 0
  else
    let r := roundMagnitude fmt q.num.natAbs q.den
    if pow2 (fmt.emax + 1) ≤ r then Num.inf (decide (q < 0))
    else Num.fin (if q < 0 then -r else r)

/-- The sum `x + y` of two doubles. -/
def add (x y : Num) : Num :=
  match x, y with
  | .nan, _ => .nan
  | _, .nan => .nan
  | .inf s, .inf t => if s = t then .inf s else .nan
  | .inf s, .fin _ => .inf s
  | .fin _, .inf t => .inf t
  | .fin a, .fin b => round binary64 (a + b)

/-- The product `x * y` of two doubles. -/
def mul (x y : Num) : Num :=
  match x, y with
  | .nan, _ => .nan
  | _, .nan => .nan
  | .inf s, .inf t => .inf (xor s t)
  | .inf s, .fin b => if b = 0 then .nan else .inf (xor s (decide (b < 0)))
  | .fin a, .inf t => if a = 0 then .nan else .inf (xor (decide (a < 0)) t)
  | .fin a, .fin b => round binary64 (a * b)

/-- The quotient `x / c` of a double by a finite constant other than zero
(the source divides by `360.0` only). -/
def divBy (x : Num) (c : ℚ) : Num :=
  match x with
  | .nan => .nan
  | .inf s => .inf (xor s (decide (c < 0)))
  | .fin a => round binary64 (a / c)

/-- The C library function `fmod( x, c )` on doubles, for a finite constant
`c` other than zero (the source calls it with `360.0` only): NaN for a NaN or
an infinite `x`, and else the exact remainder with the sign of `x`, which
needs no rounding. -/
def fmod (x : Num) (c : ℚ) : Num :=
  match x with
  | .nan => .nan
  | .inf _ => .nan
  | .fin a => .fin (Qsk.fmod a c)

/-- A double stored into a `float`. -/
def toFloat (x : Num) : Num :=
  match x with
  | .nan => .nan
  | .inf s => .inf s
  | .fin a => round binary32 a

/-- The comparison `x != y`: true whenever one side is NaN. -/
def ne (x y : Num) : Bool :=
  match x, y with
  | .nan, _ => true
  | _, .nan => true
  | .inf s, .inf t => decide (s ≠ t)
  | .inf _, .fin _ => true
  | .fin _, .inf _ => true
  | .fin a, .fin b => decide (a ≠ b)

/-- The comparison `x < y`: false whenever one side is NaN. -/
def lt (x y : Num) : Bool :=
  match x, y with
  | .nan, _ => false
  | _, .nan => false
  | .inf s, .inf t => s && !t
  | .inf s, .fin _ => s
  | .fin _, .inf t => !t
  | .fin a, .fin b => decide (a < b)

/-- The test whether a value is NaN. -/
def Num.isNaN : Num → Bool
  | .nan => true
  | _ => false

/-- The class `QPointF`: two doubles. -/
structure QPointF where
  x : Num
  y : Num
deriving DecidableEq

/-- The class `QRectF`: four doubles; `left()` is `x()` and `top()` is `y()`. -/
structure QRectF where
  x : Num
  y : Num
  width : Num
  height : Num
deriving DecidableEq

/-- The accessor `QRectF::left`. -/
def QRectF.left (r : QRectF) : Num := r.x

/-- The accessor `QRectF::top`. -/
def QRectF.top (r : QRectF) : Num := r.y

/-- The class `QVector2D`: two floats. -/
structure QVector2D where
  x : Num
  y : Num
deriving DecidableEq

/-- The constructor `QVector2D( float, float )` called with doubles, which are
stored into floats. -/
def QVector2D.create (xpos ypos : Num) : QVector2D :=
  { x := toFloat xpos, y := toFloat ypos }

/-- The operator `!=` of `QVector2D`: some component differs. -/
def QVector2D.ne (v1 v2 : QVector2D) : Bool :=
  Fp.ne v1.x v2.x || Fp.ne v1.y v2.y

/-- The test whether a component is NaN. -/
def QVector2D.hasNaN (v : QVector2D) : Bool :=
  v.x.isNaN || v.y.isNaN

/-- The class `QVector4D`: four floats. -/
structure QVector4D where
  x : Num
  y : Num
  z : Num
  w : Num
deriving DecidableEq

/-- The constructor `QVector4D( float, float, float, float )` called with
doubles, which are stored into floats. -/
def QVector4D.create (xpos ypos zpos wpos : Num) : QVector4D :=
  { x := toFloat xpos, y := toFloat ypos, z := toFloat zpos, w := toFloat wpos }

/-- The operator `!=` of `QVector4D`: some component differs. -/
def QVector4D.ne (v1 v2 : QVector4D) : Bool :=
  Fp.ne v1.x v2.x || Fp.ne v1.y v2.y || Fp.ne v1.z v2.z || Fp.ne v1.w v2.w

/-- The test whether a component is NaN. -/
def QVector4D.hasNaN (v : QVector4D) : Bool :=
  v.x.isNaN || v.y.isNaN || v.z.isNaN || v.w.isNaN

/-- Modelled from the spec: the class QskLinearDirection is declared outside the
sources at hand. The direction is a start point and a delta vector, both as
fractions of the bounding rectangle; the source reads the first with `start()`
and the second with `stop()`. -/
structure QskLinearDirection where
  start : QPointF
  stop : QPointF
deriving DecidableEq

/-- Modelled from the spec: the class QskRadialDirection is declared outside the
sources at hand: a fractional center and a fractional radius. -/
structure QskRadialDirection where
  center : QPointF
  radius : Num
deriving DecidableEq

/-- Modelled from the spec: the class QskConicDirection is declared outside the
sources at hand: a fractional center, a start angle and a span angle in
degrees. -/
structure QskConicDirection where
  center : QPointF
  startAngle : Num
  spanAngle : Num
deriving DecidableEq

/-- Modelled from the spec: the class QskGradient is declared outside the
sources at hand. Its fields are what the accessors `type()`, `stops()`,
`spread()`, `linearDirection()`, `radialDirection()` and `conicDirection()`
return. The directions hold doubles; the stops are those of the spec, whose
positions are numbers in [0, 1], compared element by element. -/
structure QskGradient where
  type : GradientType
  stops : QskGradientStops
  spread : Spread
  linearDirection : QskLinearDirection
  radialDirection : QskRadialDirection
  conicDirection : QskConicDirection
deriving DecidableEq

/-- The class `LinearMaterial`, its vector a `QVector4D` of floats. -/
structure LinearMaterial extends QskGradientMaterial where
  m_gradientVector : QVector4D
deriving DecidableEq

/-- The class `RadialMaterial`, center and radius `QVector2D`s of floats. -/
structure RadialMaterial extends QskGradientMaterial where
  m_center : QVector2D
  m_radius : QVector2D
deriving DecidableEq

/-- The class `ConicMaterial`, the center a `QVector2D` of floats, start and
span floats. -/
structure ConicMaterial extends QskGradientMaterial where
  m_center : QVector2D
  m_start : Num
  m_span : Num
deriving DecidableEq

/-- The function `LinearMaterial::setGradient` in floating-point arithmetic:
the change flag and the material after the call. -/
def LinearMaterial.setGradient (self : LinearMaterial) (rect : QRectF)
    (gradient : QskGradient) : Bool × LinearMaterial :=
  let s0 : Bool × LinearMaterial := (false, self)
  let s1 : Bool × LinearMaterial :=
    if gradient.stops ≠ s0.2.m_stops then (true, { s0.2 with m_stops := gradient.stops })
    else s0
  let s2 : Bool × LinearMaterial :=
    if gradient.spread ≠ s1.2.m_spread then (true, { s1.2 with m_spread := gradient.spread })
    else s1
  let dir := gradient.linearDirection
  let vector : QVector4D :=
    QVector4D.create
      (add rect.left (mul dir.start.x rect.width))
      (add rect.top (mul dir.start.y rect.height))
      (mul dir.stop.x rect.width)
      (mul dir.stop.y rect.height)
  let s3 : Bool × LinearMaterial :=
    if s2.2.m_gradientVector.ne vector then (true, { s2.2 with m_gradientVector := vector })
    else s2
  s3

/-- The function `RadialMaterial::setGradient` in floating-point arithmetic:
the change flag and the material after the call. -/
def RadialMaterial.setGradient (self : RadialMaterial) (rect : QRectF)
    (gradient : QskGradient) : Bool × RadialMaterial :=
  let s0 : Bool × RadialMaterial := (false, self)
  let s1 : Bool × RadialMaterial :=
    if gradient.stops ≠ s0.2.m_stops then (true, { s0.2 with m_stops := gradient.stops })
    else s0
  let s2 : Bool × RadialMaterial :=
    if gradient.spread ≠ s1.2.m_spread then (true, { s1.2 with m_spread := gradient.spread })
    else s1
  let dir := gradient.radialDirection
  let pos : QVector2D :=
    QVector2D.create
      (add rect.left (mul dir.center.x rect.width))
      (add rect.top (mul dir.center.y rect.height))
  let radius : QVector2D :=
    QVector2D.create (mul dir.radius rect.width) (mul dir.radius rect.height)
  let s3 : Bool × RadialMaterial :=
    if pos.ne s2.2.m_center || s2.2.m_radius.ne radius then
      (true, { s2.2 with m_center := pos, m_radius := radius })
    else s2
  s3

/-- The function `ConicMaterial::setGradient` in floating-point arithmetic: the
change flag and the material after the call. `start` and `span` are floats:
the quotient is computed in doubles and stored into the float, the test
`start < 0.0` reads the float, and `start += 1.0` adds in doubles and stores
the sum into the float. -/
def ConicMaterial.setGradient (self : ConicMaterial) (rect : QRectF)
    (gradient : QskGradient) : Bool × ConicMaterial :=
  let s0 : Bool × ConicMaterial := (false, self)
  let s1 : Bool × ConicMaterial :=
    if gradient.stops ≠ s0.2.m_stops then (true, { s0.2 with m_stops := gradient.stops })
    else s0
  let s2 : Bool × ConicMaterial :=
    if gradient.spread ≠ s1.2.m_spread then (true, { s1.2 with m_spread := gradient.spread })
    else s1
  let dir := gradient.conicDirection
  let center : QVector2D :=
    QVector2D.create
      (add rect.left (mul dir.center.x rect.width))
      (add rect.top (mul dir.center.y rect.height))
  let start0 : Num := toFloat (divBy (fmod dir.startAngle 360) 360)
  let start : Num := if lt start0 (Num.fin 0) then toFloat (add start0 (Num.fin 1)) else start0
  let span : Num := toFloat (divBy (fmod dir.spanAngle 360) 360)
  let s3 : Bool × ConicMaterial :=
    if center.ne s2.2.m_center then (true, { s2.2 with m_center := center })
    else s2
  let s4 : Bool × ConicMaterial :=
    if ne start s3.2.m_start || ne span s3.2.m_span then
      (true, { s3.2 with m_start := start, m_span := span })
    else s3
  s4

/-- The constructor `LinearMaterial::LinearMaterial`: a null vector, and the
base class with no stops and (as in `QGradient`) the pad spread. -/
def LinearMaterial.create : LinearMaterial :=
  { m_gradientType := GradientType.Linear, m_stops := [], m_spread := Spread.PadSpread
    m_gradientVector := { x := Num.fin 0, y := Num.fin 0, z := Num.fin 0, w := Num.fin 0 } }

/-- The constructor `RadialMaterial::RadialMaterial`. -/
def RadialMaterial.create : RadialMaterial :=
  { m_gradientType := GradientType.Radial, m_stops := [], m_spread := Spread.PadSpread
    m_center := { x := Num.fin 0, y := Num.fin 0 }
    m_radius := { x := Num.fin 0, y := Num.fin 0 } }

/-- The constructor `ConicMaterial::ConicMaterial`, with the member
initialisers `m_start = 0.0` and `m_span = 1.0`. -/
def ConicMaterial.create : ConicMaterial :=
  { m_gradientType := GradientType.Conic, m_stops := [], m_spread := Spread.PadSpread
    m_center := { x := Num.fin 0, y := Num.fin 0 }, m_start := Num.fin 0, m_span := Num.fin 1 }

/-! ### The geometry named in the floating-point statements -/

/-- The vector `LinearMaterial::setGradient` computes from `rect` and the
linear direction of `gradient`. -/
def linearGeometry (rect : QRectF) (gradient : QskGradient) : QVector4D :=
  { x := toFloat (add rect.x (mul gradient.linearDirection.start.x rect.width))
    y := toFloat (add rect.y (mul gradient.linearDirection.start.y rect.height))
    z := toFloat (mul gradient.linearDirection.stop.x rect.width)
    w := toFloat (mul gradient.linearDirection.stop.y rect.height) }

/-- The center `RadialMaterial::setGradient` and `ConicMaterial::setGradient`
compute from `rect` and a fractional center. -/
def centerGeometry (rect : QRectF) (center : QPointF) : QVector2D :=
  { x := toFloat (add rect.x (mul center.x rect.width))
    y := toFloat (add rect.y (mul center.y rect.height)) }

/-- The radius `RadialMaterial::setGradient` computes from `rect` and the
radial direction of `gradient`. -/
def radiusGeometry (rect : QRectF) (gradient : QskGradient) : QVector2D :=
  { x := toFloat (mul gradient.radialDirection.radius rect.width)
    y := toFloat (mul gradient.radialDirection.radius rect.height) }

/-- The start fraction `ConicMaterial::setGradient` computes from a start
angle. -/
def startGeometry (angle : Num) : Num :=
  if lt (toFloat (divBy (fmod angle 360) 360)) (Num.fin 0) then
    toFloat (add (toFloat (divBy (fmod angle 360) 360)) (Num.fin 1))
  else toFloat (divBy (fmod angle 360) 360)

/-- The span fraction `ConicMaterial::setGradient` computes from a span angle. -/
def spanGeometry (angle : Num) : Num :=
  toFloat (divBy (fmod angle 360) 360)

/-- A number that both a double and a float hold exactly: rounding into
either format leaves it as it is. -/
def exact (q : ℚ) : Prop :=
  round binary64 q = Num.fin q ∧ round binary32 q = Num.fin q

instance (q : ℚ) : Decidable (exact q) := by
  unfold exact; infer_instance

/-- A gradient with the given directions, two stops and the pad spread. -/
def exampleGradient (type : GradientType) (linear : QskLinearDirection)
    (radial : QskRadialDirection) (conic : QskConicDirection) : QskGradient :=
  { type := type
    stops := [⟨0, 255⟩, ⟨1, 0⟩]
    spread := Spread.PadSpread
    linearDirection := linear
    radialDirection := radial
    conicDirection := conic }

/-- The linear direction from (0, 0) with delta (1, 0). -/
def exampleLinear : QskLinearDirection :=
  { start := ⟨Num.fin 0, Num.fin 0⟩, stop := ⟨Num.fin 1, Num.fin 0⟩ }

/-- The radial direction around (0, 0) with radius 1. -/
def exampleRadial : QskRadialDirection :=
  { center := ⟨Num.fin 0, Num.fin 0⟩, radius := Num.fin 1 }

/-- The conic direction around (0, 0) that starts at 0 degrees and has the
given span angle. -/
def exampleConicDirection (spanAngle : Num) : QskConicDirection :=
  { center := ⟨Num.fin 0, Num.fin 0⟩, startAngle := Num.fin 0, spanAngle := spanAngle }

/-- The rectangle at (0, 0) with the given width and the height 50. -/
def exampleRect (width : Num) : QRectF :=
  { x := Num.fin 0, y := Num.fin 0, width := width, height := Num.fin 50 }

/-- The example gradient of the given type with the example directions and a
conic span angle of 360 degrees. -/
def exampleGradientOf (type : GradientType) : QskGradient :=
  exampleGradient type exampleLinear exampleRadial (exampleConicDirection (Num.fin 360))

/-- The example rectangle of width 100 with NaN as its left edge. -/
def exampleRectNaN : QRectF :=
  { exampleRect (Num.fin 100) with x := Num.nan }

end Fp

/-! ## Theorems -/

theorem ColorRampHashKey.eq_iff (a b : ColorRampHashKey) : a.eq b = true ↔ a = b := by
  cases a; cases b
  simp [ColorRampHashKey.eq]
  tauto

theorem QHash.same_key_iff (a b : ColorRampHashKey) : QHash.same_key a b = true ↔ a = b := by
  unfold QHash.same_key
  constructor
  · intro h
    simp only [Bool.and_eq_true] at h
    exact (ColorRampHashKey.eq_iff a b).1 h.2
  · rintro rfl
    simp [(ColorRampHashKey.eq_iff a a).2 rfl]

theorem QHash.same_key_eq (a b : ColorRampHashKey) : QHash.same_key a b = decide (a = b) := by
  by_cases h : a = b
  · simp [h, (QHash.same_key_iff b b).2 rfl]
  · cases hs : QHash.same_key a b
    · simp [h]
    · exact absurd ((QHash.same_key_iff a b).1 hs) h

theorem QHash.findNode_cons (e : ColorRampHashKey × ColorRampPtr) (t : QHash)
    (key : ColorRampHashKey) :
    QHash.findNode (e :: t) key = if e.1 = key then some e.2 else QHash.findNode t key := by
  simp [QHash.findNode, QHash.same_key_eq]

theorem QHash.assign_nil (key : ColorRampHashKey) (value : ColorRampPtr) :
    QHash.assign [] key value = [(key, value)] := rfl

theorem QHash.assign_cons (e : ColorRampHashKey × ColorRampPtr) (t : QHash)
    (key : ColorRampHashKey) (value : ColorRampPtr) :
    QHash.assign (e :: t) key value
      = if e.1 = key then (e.1, value) :: t else e :: QHash.assign t key value := by
  simp [QHash.assign, QHash.same_key_eq]

theorem QHash.findNode_assign_self (t : QHash) (key : ColorRampHashKey)
    (value : ColorRampPtr) : QHash.findNode (QHash.assign t key value) key = some value := by
  induction t with
  | nil => simp [QHash.assign_nil, QHash.findNode_cons]
  | cons e t ih =>
    rw [QHash.assign_cons]
    by_cases h : e.1 = key
    · simp [h, QHash.findNode_cons]
    · simp [h, QHash.findNode_cons, ih]

theorem QHash.findNode_assign_of_ne (t : QHash) (key other : ColorRampHashKey)
    (value : ColorRampPtr) (hne : other ≠ key) :
    QHash.findNode (QHash.assign t key value) other = QHash.findNode t other := by
  induction t with
  | nil =>
    have h : ¬ key = other := fun h => hne h.symm
    rw [QHash.assign_nil, QHash.findNode_cons]
    simp [h]
  | cons e t ih =>
    rw [QHash.assign_cons]
    by_cases h : e.1 = key
    · have h3 : ¬ e.1 = other := fun h4 => hne (h4.symm.trans h)
      simp [h, QHash.findNode_cons]
      simp [← h, h3]
    · simp only [h, if_false, QHash.findNode_cons, ih]

theorem QHash.assign_of_findNode_none (t : QHash) (key : ColorRampHashKey)
    (value : ColorRampPtr) (h : QHash.findNode t key = none) :
    QHash.assign t key value = t ++ [(key, value)] := by
  induction t with
  | nil => rfl
  | cons e t ih =>
    rw [QHash.findNode_cons] at h
    by_cases h2 : e.1 = key
    · simp [h2] at h
    · simp only [h2, if_false] at h
      rw [QHash.assign_cons]
      simp [h2, ih h]

theorem QHash.assign_append_of_findNode_none (t : QHash) (key : ColorRampHashKey)
    (v0 value : ColorRampPtr) (h : QHash.findNode t key = none) :
    QHash.assign (t ++ [(key, v0)]) key value = t ++ [(key, value)] := by
  induction t with
  | nil => simp [QHash.assign_cons]
  | cons e t ih =>
    rw [QHash.findNode_cons] at h
    by_cases h2 : e.1 = key
    · simp [h2] at h
    · simp only [h2, if_false] at h
      rw [List.cons_append, QHash.assign_cons]
      simp [h2, ih h]

theorem QHash.mem_of_findNode (t : QHash) (key : ColorRampHashKey) (value : ColorRampPtr)
    (h : QHash.findNode t key = some value) : (key, value) ∈ t := by
  induction t with
  | nil => simp [QHash.findNode] at h
  | cons e t ih =>
    rw [QHash.findNode_cons] at h
    by_cases h2 : e.1 = key
    · simp only [h2, if_true, Option.some.injEq] at h
      have : e = (key, value) := by
        cases e; simp_all
      simp [this]
    · simp only [h2, if_false] at h
      exact List.mem_cons_of_mem _ (ih h)

theorem QHash.findNode_none_iff (t : QHash) (key : ColorRampHashKey) :
    QHash.findNode t key = none ↔ ∀ e ∈ t, e.1 ≠ key := by
  induction t with
  | nil => simp [QHash.findNode]
  | cons e t ih =>
    rw [QHash.findNode_cons]
    by_cases h2 : e.1 = key
    · simp [h2]
    · simp [h2, ih]

/-! ### `colorRamp` by cases on the table -/

theorem ColorRampCache.colorRamp_hit (c : ColorRampCache) (rhi : RhiPtr)
    (stops : QskGradientStops) (spread : Spread) (t : Nat)
    (h : QHash.findNode c.m_hashTable ⟨rhi, stops, spread⟩ = some (some t)) :
    c.colorRamp rhi stops spread = (some t, c) := by
  simp [ColorRampCache.colorRamp, QHash.index, h]

theorem ColorRampCache.colorRamp_miss (c : ColorRampCache) (rhi : RhiPtr)
    (stops : QskGradientStops) (spread : Spread)
    (h : QHash.findNode c.m_hashTable ⟨rhi, stops, spread⟩ = none) :
    c.colorRamp rhi stops spread
      = (some c.heap.length,
          { m_hashTable := c.m_hashTable ++ [(⟨rhi, stops, spread⟩, some c.heap.length)]
            m_rhiTable :=
              if rhi ≠ none then
                if ¬ (rhi ∈ c.m_rhiTable) then c.m_rhiTable ++ [rhi] else c.m_rhiTable
              else c.m_rhiTable
            heap := c.heap ++ [ColorRamp.create stops spread]
            deleted := c.deleted }) := by
  simp only [ColorRampCache.colorRamp, QHash.index, h, if_true]
  rw [QHash.assign_of_findNode_none _ _ _ h, QHash.assign_append_of_findNode_none _ _ _ _ h]

theorem ColorRampCache.colorRamp_null (c : ColorRampCache) (rhi : RhiPtr)
    (stops : QskGradientStops) (spread : Spread)
    (h : QHash.findNode c.m_hashTable ⟨rhi, stops, spread⟩ = some none) :
    c.colorRamp rhi stops spread
      = (some c.heap.length,
          { m_hashTable := QHash.assign c.m_hashTable ⟨rhi, stops, spread⟩ (some c.heap.length)
            m_rhiTable :=
              if rhi ≠ none then
                if ¬ (rhi ∈ c.m_rhiTable) then c.m_rhiTable ++ [rhi] else c.m_rhiTable
              else c.m_rhiTable
            heap := c.heap ++ [ColorRamp.create stops spread]
            deleted := c.deleted }) := by
  simp only [ColorRampCache.colorRamp, QHash.index, h, if_true]

/-- Whatever the state, `colorRamp` returns a non-null texture that the table
then holds under the key. -/
theorem ColorRampCache.colorRamp_spec (c : ColorRampCache) (rhi : RhiPtr)
    (stops : QskGradientStops) (spread : Spread) :
    ∃ t, (c.colorRamp rhi stops spread).1 = some t
      ∧ QHash.findNode (c.colorRamp rhi stops spread).2.m_hashTable ⟨rhi, stops, spread⟩
          = some (some t) := by
  rcases hf : QHash.findNode c.m_hashTable ⟨rhi, stops, spread⟩ with _ | (_ | t)
  · refine ⟨c.heap.length, ?_, ?_⟩
    · rw [c.colorRamp_miss rhi stops spread hf]
    · rw [c.colorRamp_miss rhi stops spread hf]
      rw [← QHash.assign_of_findNode_none _ _ _ hf]
      exact QHash.findNode_assign_self _ _ _
  · refine ⟨c.heap.length, ?_, ?_⟩
    · rw [c.colorRamp_null rhi stops spread hf]
    · rw [c.colorRamp_null rhi stops spread hf]
      exact QHash.findNode_assign_self _ _ _
  · refine ⟨t, ?_, ?_⟩
    · rw [c.colorRamp_hit rhi stops spread t hf]
    · rw [c.colorRamp_hit rhi stops spread t hf]
      exact hf

/-- A lookup leaves the texture of every other key where it is. -/
theorem ColorRampCache.colorRamp_findNode_other (c : ColorRampCache) (rhi : RhiPtr)
    (stops : QskGradientStops) (spread : Spread) (other : ColorRampHashKey)
    (hne : other ≠ ⟨rhi, stops, spread⟩) :
    QHash.findNode (c.colorRamp rhi stops spread).2.m_hashTable other
      = QHash.findNode c.m_hashTable other := by
  rcases hf : QHash.findNode c.m_hashTable ⟨rhi, stops, spread⟩ with _ | (_ | t)
  · rw [c.colorRamp_miss rhi stops spread hf]
    rw [← QHash.assign_of_findNode_none _ _ _ hf]
    exact QHash.findNode_assign_of_ne _ _ _ _ hne
  · rw [c.colorRamp_null rhi stops spread hf]
    exact QHash.findNode_assign_of_ne _ _ _ _ hne
  · rw [c.colorRamp_hit rhi stops spread t hf]

theorem QHash.countKey_assign_of_ne (t : QHash) (key other : ColorRampHashKey)
    (value : ColorRampPtr) (hne : other ≠ key) :
    QHash.countKey (QHash.assign t key value) other = QHash.countKey t other := by
  have hne2 : ¬ key = other := fun h => hne h.symm
  induction t with
  | nil =>
    rw [QHash.assign_nil]
    simp [QHash.countKey, hne2]
  | cons e t ih =>
    rw [QHash.assign_cons]
    unfold QHash.countKey at ih ⊢
    by_cases h : e.1 = key
    · simp [h, hne2]
    · simp only [h, if_false]
      by_cases h2 : e.1 = other
      · simp [List.filter_cons, h2, ih]
      · simp [List.filter_cons, h2, ih]

theorem QHash.countKey_assign_self (t : QHash) (key : ColorRampHashKey)
    (value : ColorRampPtr) :
    QHash.countKey (QHash.assign t key value) key = max 1 (QHash.countKey t key) := by
  induction t with
  | nil =>
    rw [QHash.assign_nil]
    simp [QHash.countKey]
  | cons e t ih =>
    rw [QHash.assign_cons]
    unfold QHash.countKey at ih ⊢
    by_cases h : e.1 = key
    · simp [h]
    · simp [h, List.filter_cons, ih]

theorem QHash.countKey_assign_le (t : QHash) (key other : ColorRampHashKey)
    (value : ColorRampPtr) :
    QHash.countKey (QHash.assign t key value) other ≤ max 1 (QHash.countKey t other) := by
  by_cases h : other = key
  · subst h
    rw [QHash.countKey_assign_self]
  · rw [QHash.countKey_assign_of_ne _ _ _ _ h]
    exact le_max_right _ _

/-! ### The invariant -/

theorem QHash.mem_textures (table : QHash) (t : Nat) :
    t ∈ QHash.textures table ↔ ∃ e ∈ table, e.2 = some t := by
  simp [QHash.textures, List.mem_filterMap]

theorem ColorRampCache.WF_create : ColorRampCache.create.WF := by
  decide

theorem ColorRampCache.WF_findNode_ne_null (c : ColorRampCache) (hwf : c.WF)
    (key : ColorRampHashKey) : QHash.findNode c.m_hashTable key ≠ some none := by
  intro h
  exact hwf.2.1 _ (QHash.mem_of_findNode _ _ _ h) rfl

theorem ColorRampCache.WF_findNode_lt (c : ColorRampCache) (hwf : c.WF)
    (key : ColorRampHashKey) (t : Nat)
    (h : QHash.findNode c.m_hashTable key = some (some t)) :
    t < c.heap.length ∧ t ∉ c.deleted :=
  hwf.2.2.1 t ((QHash.mem_textures _ _).2 ⟨_, QHash.mem_of_findNode _ _ _ h, rfl⟩)

/-- In a well-formed cache two keys that hold the same texture are the same key. -/
theorem ColorRampCache.WF_findNode_inj (c : ColorRampCache) (hwf : c.WF)
    (k1 k2 : ColorRampHashKey) (t : Nat)
    (h1 : QHash.findNode c.m_hashTable k1 = some (some t))
    (h2 : QHash.findNode c.m_hashTable k2 = some (some t)) : k1 = k2 := by
  by_contra hne
  have m1 := QHash.mem_of_findNode _ _ _ h1
  have m2 := QHash.mem_of_findNode _ _ _ h2
  have hsym : Symmetric (fun a b : ColorRampHashKey × ColorRampPtr => a.1 ≠ b.1 ∧ a.2 ≠ b.2) :=
    fun a b h => ⟨fun x => h.1 x.symm, fun x => h.2 x.symm⟩
  have hp := List.Pairwise.forall hsym hwf.1 m1 m2 (by
    intro h
    exact hne (congrArg Prod.fst h))
  exact hp.2 rfl

theorem ColorRampCache.WF_colorRamp (c : ColorRampCache) (hwf : c.WF) (rhi : RhiPtr)
    (stops : QskGradientStops) (spread : Spread) : (c.colorRamp rhi stops spread).2.WF := by
  rcases hf : QHash.findNode c.m_hashTable ⟨rhi, stops, spread⟩ with _ | (_ | t)
  · rw [c.colorRamp_miss rhi stops spread hf]
    obtain ⟨hp, hn, ht, hd⟩ := hwf
    have hkeys := (QHash.findNode_none_iff _ _).1 hf
    refine ⟨?_, ?_, ?_, ?_⟩
    · rw [List.pairwise_append]
      refine ⟨hp, List.pairwise_singleton _ _, ?_⟩
      intro a ha b hb
      rw [List.mem_singleton] at hb
      subst hb
      refine ⟨hkeys a ha, ?_⟩
      intro h2
      have := (ht c.heap.length ((QHash.mem_textures _ _).2 ⟨a, ha, h2⟩)).1
      exact lt_irrefl _ this
    · intro e he
      rw [List.mem_append, List.mem_singleton] at he
      rcases he with he | he
      · exact hn e he
      · subst he
        simp
    · intro t h
      rw [QHash.mem_textures] at h
      obtain ⟨e, he, het⟩ := h
      rw [List.mem_append, List.mem_singleton] at he
      rw [List.length_append, List.length_singleton]
      rcases he with he | he
      · have := ht t ((QHash.mem_textures _ _).2 ⟨e, he, het⟩)
        exact ⟨Nat.lt_succ_of_lt this.1, this.2⟩
      · subst he
        simp only [Option.some.injEq] at het
        subst het
        refine ⟨Nat.lt_succ_self _, ?_⟩
        intro h3
        exact lt_irrefl _ (hd _ h3)
    · intro t h
      rw [List.length_append, List.length_singleton]
      exact Nat.lt_succ_of_lt (hd t h)
  · exact absurd hf (c.WF_findNode_ne_null hwf _)
  · rw [c.colorRamp_hit rhi stops spread t hf]
    exact hwf

/-! ### The teardown loop -/

theorem QHash.mem_eraseRhi (t : QHash) (rhi : RhiPtr) (e : ColorRampHashKey × ColorRampPtr) :
    e ∈ (QHash.eraseRhi t rhi).1 ↔ e ∈ t ∧ e.1.rhi ≠ rhi := by
  induction t with
  | nil => simp [QHash.eraseRhi]
  | cons a t ih =>
    by_cases h : a.1.rhi = rhi
    · simp only [QHash.eraseRhi, h, if_true, ih, List.mem_cons]
      constructor
      · rintro ⟨h1, h2⟩
        exact ⟨Or.inr h1, h2⟩
      · rintro ⟨h1 | h1, h2⟩
        · subst h1
          exact absurd h h2
        · exact ⟨h1, h2⟩
    · simp only [QHash.eraseRhi, h, if_false, List.mem_cons, ih]
      constructor
      · rintro (h1 | ⟨h1, h2⟩)
        · subst h1
          exact ⟨Or.inl rfl, h⟩
        · exact ⟨Or.inr h1, h2⟩
      · rintro ⟨h1 | h1, h2⟩
        · exact Or.inl h1
        · exact Or.inr ⟨h1, h2⟩

theorem QHash.mem_eraseRhi_deleted (t : QHash) (rhi : RhiPtr) (p : ColorRampPtr) :
    p ∈ (QHash.eraseRhi t rhi).2 ↔ ∃ e ∈ t, e.1.rhi = rhi ∧ e.2 = p := by
  induction t with
  | nil => simp [QHash.eraseRhi]
  | cons a t ih =>
    by_cases h : a.1.rhi = rhi
    · simp only [QHash.eraseRhi, h, if_true, List.mem_cons, ih]
      constructor
      · rintro (h1 | ⟨e, he, h2, h3⟩)
        · exact ⟨a, Or.inl rfl, h, h1.symm⟩
        · exact ⟨e, Or.inr he, h2, h3⟩
      · rintro ⟨e, he | he, h2, h3⟩
        · subst he
          exact Or.inl h3.symm
        · exact Or.inr ⟨e, he, h2, h3⟩
    · simp only [QHash.eraseRhi, h, if_false, ih]
      constructor
      · rintro ⟨e, he, h2, h3⟩
        exact ⟨e, List.mem_cons_of_mem _ he, h2, h3⟩
      · rintro ⟨e, he, h2, h3⟩
        rw [List.mem_cons] at he
        rcases he with he | he
        · subst he
          exact absurd h2 h
        · exact ⟨e, he, h2, h3⟩

theorem QHash.eraseRhi_sublist (t : QHash) (rhi : RhiPtr) :
    List.Sublist (QHash.eraseRhi t rhi).1 t := by
  induction t with
  | nil => simp [QHash.eraseRhi]
  | cons a t ih =>
    by_cases h : a.1.rhi = rhi
    · simp only [QHash.eraseRhi, h, if_true]
      exact List.Sublist.cons _ ih
    · simp only [QHash.eraseRhi, h, if_false]
      exact List.Sublist.cons₂ _ ih

theorem QHash.findNode_eraseRhi_of_ne (t : QHash) (rhi : RhiPtr) (key : ColorRampHashKey)
    (hne : key.rhi ≠ rhi) :
    QHash.findNode (QHash.eraseRhi t rhi).1 key = QHash.findNode t key := by
  induction t with
  | nil => simp [QHash.eraseRhi]
  | cons a t ih =>
    by_cases h : a.1.rhi = rhi
    · have h2 : ¬ a.1 = key := by
        intro h3
        rw [h3] at h
        exact hne h
      simp only [QHash.eraseRhi, h, if_true, ih, QHash.findNode_cons, h2, if_false]
    · simp only [QHash.eraseRhi, h, if_false, QHash.findNode_cons, ih]

theorem QHash.findNode_eraseRhi_of_eq (t : QHash) (rhi : RhiPtr) (key : ColorRampHashKey)
    (heq : key.rhi = rhi) : QHash.findNode (QHash.eraseRhi t rhi).1 key = none := by
  rw [QHash.findNode_none_iff]
  intro e he h
  rw [QHash.mem_eraseRhi] at he
  rw [h] at he
  exact he.2 heq

theorem ColorRampCache.WF_cleanupRhi (c : ColorRampCache) (hwf : c.WF) (rhi : RhiPtr) :
    (c.cleanupRhi rhi).WF := by
  obtain ⟨hp, hn, ht, hd⟩ := hwf
  have hsym : Symmetric (fun a b : ColorRampHashKey × ColorRampPtr => a.1 ≠ b.1 ∧ a.2 ≠ b.2) :=
    fun a b h => ⟨fun x => h.1 x.symm, fun x => h.2 x.symm⟩
  refine ⟨hp.sublist (QHash.eraseRhi_sublist _ _), ?_, ?_, ?_⟩
  · intro e he
    exact hn e ((QHash.mem_eraseRhi _ _ _).1 he).1
  · intro t h
    obtain ⟨e, he, het⟩ := (QHash.mem_textures _ _).1 h
    obtain ⟨hmem, hrhi⟩ := (QHash.mem_eraseRhi _ _ _).1 he
    have hlt := ht t ((QHash.mem_textures _ _).2 ⟨e, hmem, het⟩)
    refine ⟨hlt.1, ?_⟩
    intro hdel
    simp only [ColorRampCache.cleanupRhi, List.mem_append, List.mem_filterMap, id] at hdel
    rcases hdel with hdel | ⟨q, hq, hqt⟩
    · exact hlt.2 hdel
    · subst hqt
      obtain ⟨e2, he2, hrhi2, hval2⟩ := (QHash.mem_eraseRhi_deleted _ _ _).1 hq
      have hne : e ≠ e2 := by
        intro h3
        rw [h3] at hrhi
        exact hrhi hrhi2
      exact (List.Pairwise.forall hsym hp hmem he2 hne).2 (het.trans hval2.symm)
  · intro t h
    simp only [ColorRampCache.cleanupRhi, List.mem_append, List.mem_filterMap, id] at h
    rcases h with h | ⟨q, hq, hqt⟩
    · exact hd t h
    · subst hqt
      obtain ⟨e2, he2, _, hval2⟩ := (QHash.mem_eraseRhi_deleted _ _ _).1 hq
      exact (ht t ((QHash.mem_textures _ _).2 ⟨e2, he2, hval2⟩)).1

theorem ColorRampCache.colorRamp_countKey_le (c : ColorRampCache) (rhi : RhiPtr)
    (stops : QskGradientStops) (spread : Spread) (k : ColorRampHashKey) :
    QHash.countKey (c.colorRamp rhi stops spread).2.m_hashTable k
      ≤ max 1 (QHash.countKey c.m_hashTable k) := by
  rcases hf : QHash.findNode c.m_hashTable ⟨rhi, stops, spread⟩ with _ | (_ | t)
  · rw [c.colorRamp_miss rhi stops spread hf]
    rw [← QHash.assign_of_findNode_none _ _ _ hf]
    exact QHash.countKey_assign_le _ _ _ _
  · rw [c.colorRamp_null rhi stops spread hf]
    exact QHash.countKey_assign_le _ _ _ _
  · rw [c.colorRamp_hit rhi stops spread t hf]
    exact le_max_right _ _

theorem QHash.countKey_le_one_of_pairwise (t : QHash)
    (hp : t.Pairwise (fun a b => a.1 ≠ b.1 ∧ a.2 ≠ b.2)) (k : ColorRampHashKey) :
    QHash.countKey t k ≤ 1 := by
  induction t with
  | nil => simp [QHash.countKey]
  | cons a t ih =>
    rw [List.pairwise_cons] at hp
    have h1 := ih hp.2
    unfold QHash.countKey at h1 ⊢
    by_cases h : a.1 = k
    · have h0 : List.filter (fun e => decide (e.1 = k)) t = [] := by
        rw [List.filter_eq_nil_iff]
        intro b hb
        have := (hp.1 b hb).1
        simp only [decide_eq_true_eq]
        intro h2
        exact this (h.trans h2.symm)
      simp [List.filter_cons, h, h0]
    · simpa [List.filter_cons, h] using h1

/-- Every state the cache reaches from its creation is well-formed. -/
theorem ColorRampCache.WF_after (calls : List ColorRampCache.Call) (c : ColorRampCache)
    (hwf : c.WF) : (c.after calls).WF := by
  induction calls generalizing c with
  | nil => exact hwf
  | cons call rest ih =>
    cases call with
    | colorRamp rhi stops spread => exact ih _ (c.WF_colorRamp hwf rhi stops spread)
    | cleanupRhi rhi => exact ih _ (c.WF_cleanupRhi hwf rhi)

/-! ### The colour-ramp cache: claims -/

/-- C1: `ColorRampCache::colorRamp` is a lookup-or-insert. In every cache state
and for every context handle, stops and spread, the call returns a non-null
texture; a second call with the same three arguments returns the same
texture instance and leaves the whole cache as the first call left it, so it
neither constructs a texture (the heap is the same) nor adds a node (the
table is the same); and a table with at most one node per key still has at
most one node per key after the two calls. -/
theorem colorRamp_lookup_or_insert (c : ColorRampCache) (rhi : RhiPtr)
    (stops : QskGradientStops) (spread : Spread) :
    (c.colorRamp rhi stops spread).1 ≠ none
      ∧ ((c.colorRamp rhi stops spread).2.colorRamp rhi stops spread).1
          = (c.colorRamp rhi stops spread).1
      ∧ ((c.colorRamp rhi stops spread).2.colorRamp rhi stops spread).2
          = (c.colorRamp rhi stops spread).2
      ∧ ((∀ k, QHash.countKey c.m_hashTable k ≤ 1) →
          ∀ k, QHash.countKey
            ((c.colorRamp rhi stops spread).2.colorRamp rhi stops spread).2.m_hashTable k ≤ 1) := by
  obtain ⟨t, ht, hfind⟩ := c.colorRamp_spec rhi stops spread
  have hsecond := (c.colorRamp rhi stops spread).2.colorRamp_hit rhi stops spread t hfind
  refine ⟨?_, ?_, ?_, ?_⟩
  · rw [ht]
    simp
  · rw [hsecond, ht]
  · rw [hsecond]
  · intro hone k
    rw [hsecond]
    have h1 := c.colorRamp_countKey_le rhi stops spread k
    have h2 := hone k
    have h3 : max 1 (QHash.countKey c.m_hashTable k) = 1 := max_eq_left h2
    rw [h3] at h1
    exact h1

/-- Witness for C1: in the example cache a context not seen before gets a new
texture, the second call returns that same texture, and the table keeps one
node per key. -/
theorem colorRamp_lookup_or_insert_witness :
    (exampleCache.colorRamp (some 3) [] Spread.RepeatSpread).1 = some 3
      ∧ ((exampleCache.colorRamp (some 3) [] Spread.RepeatSpread).2.colorRamp
          (some 3) [] Spread.RepeatSpread).1 = some 3
      ∧ ∀ k, QHash.countKey
          ((exampleCache.colorRamp (some 3) [] Spread.RepeatSpread).2.colorRamp
            (some 3) [] Spread.RepeatSpread).2.m_hashTable k ≤ 1 :=
  ⟨by decide, by decide,
    (colorRamp_lookup_or_insert exampleCache (some 3) [] Spread.RepeatSpread).2.2.2 (by
      intro k
      have hwf : exampleCache.WF := by decide
      exact QHash.countKey_le_one_of_pairwise _ hwf.1 k)⟩

/-- C2: the cache is partitioned by context identity. In every well-formed
cache state, for every stops and spread and every two different non-null
context handles `h1` and `h2`, the call for `h1` followed by the call for `h2`
returns two non-null textures that are distinct instances, and asking again
for `h1` afterwards still returns the first one. -/
theorem colorRamp_partitioned_by_context (c : ColorRampCache) (hwf : c.WF) (h1 h2 : Nat)
    (hne : h1 ≠ h2) (stops : QskGradientStops) (spread : Spread) :
    (c.colorRamp (some h1) stops spread).1 ≠ none
      ∧ ((c.colorRamp (some h1) stops spread).2.colorRamp (some h2) stops spread).1 ≠ none
      ∧ (c.colorRamp (some h1) stops spread).1
          ≠ ((c.colorRamp (some h1) stops spread).2.colorRamp (some h2) stops spread).1
      ∧ (((c.colorRamp (some h1) stops spread).2.colorRamp (some h2) stops spread).2.colorRamp
            (some h1) stops spread).1 = (c.colorRamp (some h1) stops spread).1 := by
  obtain ⟨t1, ht1, hf1⟩ := c.colorRamp_spec (some h1) stops spread
  have hwf1 := c.WF_colorRamp hwf (some h1) stops spread
  generalize (c.colorRamp (some h1) stops spread) = r1 at ht1 hf1 hwf1 ⊢
  obtain ⟨t2, ht2, hf2⟩ := r1.2.colorRamp_spec (some h2) stops spread
  have hwf2 := r1.2.WF_colorRamp hwf1 (some h2) stops spread
  have hkeys : (⟨some h1, stops, spread⟩ : ColorRampHashKey) ≠ ⟨some h2, stops, spread⟩ := by
    intro h
    simp only [ColorRampHashKey.mk.injEq, Option.some.injEq] at h
    exact hne h.1
  have hother := r1.2.colorRamp_findNode_other (some h2) stops spread _ hkeys
  rw [hf1] at hother
  generalize (r1.2.colorRamp (some h2) stops spread) = r2 at ht2 hf2 hwf2 hother ⊢
  refine ⟨?_, ?_, ?_, ?_⟩
  · rw [ht1]
    simp
  · rw [ht2]
    simp
  · rw [ht1, ht2]
    intro h
    simp only [Option.some.injEq] at h
    subst h
    exact hkeys (r2.2.WF_findNode_inj hwf2 _ _ t1 hother hf2)
  · rw [r2.2.colorRamp_hit (some h1) stops spread t1 hother, ht1]

/-- Witness for C2: in the fresh cache the contexts 1 and 2 get the textures 0
and 1 for the same stops and spread. -/
theorem colorRamp_partitioned_by_context_witness :
    ColorRampCache.create.WF ∧ (1 : Nat) ≠ 2
      ∧ (ColorRampCache.create.colorRamp (some 1) [⟨0, 255⟩] Spread.PadSpread).1
          ≠ ((ColorRampCache.create.colorRamp (some 1) [⟨0, 255⟩] Spread.PadSpread).2.colorRamp
              (some 2) [⟨0, 255⟩] Spread.PadSpread).1 :=
  ⟨by decide, by decide,
    (colorRamp_partitioned_by_context ColorRampCache.create (by decide) 1 2 (by decide)
      [⟨0, 255⟩] Spread.PadSpread).2.2.1⟩

/-- C3: teardown evicts the context. In every well-formed cache state, for every
non-null context handle `h` and every stops and spread cached under `h` with
texture `t`: after `cleanupRhi(h)` no node of the table has context `h` and
`t` has been deleted; the next `colorRamp(h, stops, spread)` constructs a new
texture object (the heap grows by the new colour ramp), inserts it under the
key, and returns it, and it is not the instance `t`. -/
theorem cleanupRhi_evicts_context (c : ColorRampCache) (hwf : c.WF) (h : Nat)
    (stops : QskGradientStops) (spread : Spread) (t : Nat)
    (hcached : QHash.findNode c.m_hashTable ⟨some h, stops, spread⟩ = some (some t)) :
    (∀ e ∈ (c.cleanupRhi (some h)).m_hashTable, e.1.rhi ≠ some h)
      ∧ t ∈ (c.cleanupRhi (some h)).deleted
      ∧ ((c.cleanupRhi (some h)).colorRamp (some h) stops spread).1 = some c.heap.length
      ∧ ((c.cleanupRhi (some h)).colorRamp (some h) stops spread).1 ≠ some t
      ∧ ((c.cleanupRhi (some h)).colorRamp (some h) stops spread).2.heap
          = c.heap ++ [ColorRamp.create stops spread]
      ∧ ((c.cleanupRhi (some h)).colorRamp (some h) stops spread).2.m_hashTable
          = (c.cleanupRhi (some h)).m_hashTable
              ++ [(⟨some h, stops, spread⟩, some c.heap.length)] := by
  have hnone : QHash.findNode (c.cleanupRhi (some h)).m_hashTable ⟨some h, stops, spread⟩
      = none := QHash.findNode_eraseRhi_of_eq _ _ _ rfl
  have hheap : (c.cleanupRhi (some h)).heap = c.heap := rfl
  have hmiss := (c.cleanupRhi (some h)).colorRamp_miss (some h) stops spread hnone
  refine ⟨?_, ?_, ?_, ?_, ?_, ?_⟩
  · intro e he
    exact ((QHash.mem_eraseRhi _ _ _).1 he).2
  · simp only [ColorRampCache.cleanupRhi, List.mem_append, List.mem_filterMap, id]
    refine Or.inr ⟨some t, ?_, rfl⟩
    exact (QHash.mem_eraseRhi_deleted _ _ _).2
      ⟨_, QHash.mem_of_findNode _ _ _ hcached, rfl, rfl⟩
  · rw [hmiss, hheap]
  · rw [hmiss, hheap]
    intro h2
    simp only [Option.some.injEq] at h2
    have := (c.WF_findNode_lt hwf _ t hcached).1
    omega
  · rw [hmiss, hheap]
  · rw [hmiss, hheap]

/-- Witness for C3: in the example cache context 1 holds texture 1; after its
teardown the same stops and spread get the new texture 3. -/
theorem cleanupRhi_evicts_context_witness :
    exampleCache.WF
      ∧ QHash.findNode exampleCache.m_hashTable ⟨some 1, [⟨0, 255⟩, ⟨1, 0⟩], Spread.PadSpread⟩
          = some (some 1)
      ∧ ((exampleCache.cleanupRhi (some 1)).colorRamp (some 1) [⟨0, 255⟩, ⟨1, 0⟩]
          Spread.PadSpread).1 ≠ some 1 :=
  ⟨by decide, by decide,
    (cleanupRhi_evicts_context exampleCache (by decide) 1 [⟨0, 255⟩, ⟨1, 0⟩] Spread.PadSpread 1
      (by decide)).2.2.2.1⟩

/-- C4: teardown evicts only the matching nodes. In every cache state and for
every handle `rhi` (null included), every node whose key has another context
is still in the table after `cleanupRhi(rhi)`, and a key with another context
(the null context of the legacy pipeline included) that held the pointer `p`
still holds `p`; when `p` is a texture `t`, a later `colorRamp` on that key
returns `t` and changes nothing, and in a well-formed cache `t` has not been
deleted. -/
theorem cleanupRhi_keeps_other_contexts (c : ColorRampCache) (rhi : RhiPtr)
    (key : ColorRampHashKey) (p : ColorRampPtr) (hne : key.rhi ≠ rhi)
    (hin : QHash.findNode c.m_hashTable key = some p) :
    (∀ e ∈ c.m_hashTable, e.1.rhi ≠ rhi → e ∈ (c.cleanupRhi rhi).m_hashTable)
      ∧ QHash.findNode (c.cleanupRhi rhi).m_hashTable key = some p
      ∧ (∀ t, p = some t →
          (c.cleanupRhi rhi).colorRamp key.rhi key.stops key.spread = (some t, c.cleanupRhi rhi))
      ∧ (c.WF → ∀ t, p = some t → t ∉ (c.cleanupRhi rhi).deleted) := by
  have hkept : QHash.findNode (c.cleanupRhi rhi).m_hashTable key = some p := by
    have := QHash.findNode_eraseRhi_of_ne c.m_hashTable rhi key hne
    rw [hin] at this
    exact this
  refine ⟨?_, hkept, ?_, ?_⟩
  · intro e he her
    exact (QHash.mem_eraseRhi _ _ _).2 ⟨he, her⟩
  · intro t ht
    subst ht
    exact (c.cleanupRhi rhi).colorRamp_hit key.rhi key.stops key.spread t hkept
  · intro hwf t ht
    subst ht
    exact ((c.cleanupRhi rhi).WF_findNode_lt (c.WF_cleanupRhi hwf rhi) key t hkept).2

/-- Witness for C4: tearing down context 1 of the example cache leaves the
texture 0 of the legacy pipeline (null context) in place. -/
theorem cleanupRhi_keeps_other_contexts_witness :
    (none : RhiPtr) ≠ some 1
      ∧ QHash.findNode exampleCache.m_hashTable ⟨none, [⟨0, 255⟩, ⟨1, 0⟩], Spread.PadSpread⟩
          = some (some 0)
      ∧ QHash.findNode (exampleCache.cleanupRhi (some 1)).m_hashTable
          ⟨none, [⟨0, 255⟩, ⟨1, 0⟩], Spread.PadSpread⟩ = some (some 0)
      ∧ exampleCache.WF
      ∧ 0 ∉ (exampleCache.cleanupRhi (some 1)).deleted :=
  ⟨by decide, by decide,
    (cleanupRhi_keeps_other_contexts exampleCache (some 1)
      ⟨none, [⟨0, 255⟩, ⟨1, 0⟩], Spread.PadSpread⟩ (some 0) (by decide) (by decide)).2.1,
    by decide,
    (cleanupRhi_keeps_other_contexts exampleCache (some 1)
      ⟨none, [⟨0, 255⟩, ⟨1, 0⟩], Spread.PadSpread⟩ (some 0) (by decide) (by decide)).2.2.2
      (by decide) 0 rfl⟩

/-! ### Materials: what `setGradient` computes -/

theorem linear_setGradient_eq (m : LinearMaterial) (rect : QRectF) (g : QskGradient) :
    m.setGradient rect g
      = (decide (g.stops ≠ m.m_stops ∨ g.spread ≠ m.m_spread
            ∨ linearGeometry rect g ≠ m.m_gradientVector),
          { m_gradientType := m.m_gradientType, m_stops := g.stops, m_spread := g.spread,
            m_gradientVector := linearGeometry rect g }) := by
  obtain ⟨⟨ty, st, sp⟩, v⟩ := m
  unfold LinearMaterial.setGradient linearGeometry QRectF.left QRectF.top
  by_cases h1 : g.stops = st <;> by_cases h2 : g.spread = sp <;>
    by_cases h3 : v = ({ x := rect.x + g.linearDirection.start.x * rect.width
                         y := rect.y + g.linearDirection.start.y * rect.height
                         z := g.linearDirection.stop.x * rect.width
                         w := g.linearDirection.stop.y * rect.height } : QVector4D) <;>
    simp [h1, h2, h3, eq_comm]

theorem radial_setGradient_eq (m : RadialMaterial) (rect : QRectF) (g : QskGradient) :
    m.setGradient rect g
      = (decide (g.stops ≠ m.m_stops ∨ g.spread ≠ m.m_spread
            ∨ radialGeometry rect g ≠ (m.m_center, m.m_radius)),
          { m_gradientType := m.m_gradientType, m_stops := g.stops, m_spread := g.spread,
            m_center := (radialGeometry rect g).1, m_radius := (radialGeometry rect g).2 }) := by
  obtain ⟨⟨ty, st, sp⟩, ce, ra⟩ := m
  unfold RadialMaterial.setGradient radialGeometry QRectF.left QRectF.top
  by_cases h1 : g.stops = st <;> by_cases h2 : g.spread = sp <;>
    by_cases h3 : ce = ({ x := rect.x + g.radialDirection.center.x * rect.width
                          y := rect.y + g.radialDirection.center.y * rect.height } : QVector2D) <;>
    by_cases h4 : ra = ({ x := g.radialDirection.radius * rect.width
                          y := g.radialDirection.radius * rect.height } : QVector2D) <;>
    simp [h1, h2, h3, h4, eq_comm]

theorem conic_setGradient_eq (m : ConicMaterial) (rect : QRectF) (g : QskGradient) :
    m.setGradient rect g
      = (decide (g.stops ≠ m.m_stops ∨ g.spread ≠ m.m_spread
            ∨ conicGeometry rect g ≠ (m.m_center, m.m_start, m.m_span)),
          { m_gradientType := m.m_gradientType, m_stops := g.stops, m_spread := g.spread,
            m_center := (conicGeometry rect g).1, m_start := (conicGeometry rect g).2.1,
            m_span := (conicGeometry rect g).2.2 }) := by
  obtain ⟨⟨ty, st, sp⟩, ce, sa, sn⟩ := m
  unfold ConicMaterial.setGradient conicGeometry QRectF.left QRectF.top
  by_cases h1 : g.stops = st <;> by_cases h2 : g.spread = sp <;>
    by_cases h3 : ce = ({ x := rect.x + g.conicDirection.center.x * rect.width
                          y := rect.y + g.conicDirection.center.y * rect.height } : QVector2D) <;>
    by_cases h4 : sa = (if fmod g.conicDirection.startAngle 360 / 360 < 0
        then fmod g.conicDirection.startAngle 360 / 360 + 1
        else fmod g.conicDirection.startAngle 360 / 360) <;>
    by_cases h5 : sn = fmod g.conicDirection.spanAngle 360 / 360 <;>
    simp [h1, h2, h3, h4, h5, eq_comm]

/-! ### Arithmetic of `fmod` -/

theorem truncate_sub_nonneg (x : ℚ) (hx : 0 ≤ x) :
    0 ≤ x - (truncate x : ℚ) ∧ x - (truncate x : ℚ) < 1 := by
  have h1 := Int.floor_le x
  have h2 := Int.lt_floor_add_one x
  simp only [truncate, hx, if_true]
  constructor <;> linarith

theorem truncate_sub_neg (x : ℚ) (hx : x < 0) :
    -1 < x - (truncate x : ℚ) ∧ x - (truncate x : ℚ) ≤ 0 := by
  have h1 := Int.le_ceil x
  have h2 := Int.ceil_lt_add_one x
  have hx2 : ¬ 0 ≤ x := not_le.2 hx
  simp only [truncate, hx2, if_false]
  constructor <;> linarith

theorem fmod_div (a : ℚ) : fmod a 360 / 360 = a / 360 - (truncate (a / 360) : ℚ) := by
  unfold fmod
  field_simp
  ring

theorem fmod_div_bounds (a : ℚ) : -1 < fmod a 360 / 360 ∧ fmod a 360 / 360 < 1 := by
  rw [fmod_div]
  rcases le_or_lt 0 (a / 360) with h | h
  · have := truncate_sub_nonneg _ h
    constructor <;> linarith
  · have := truncate_sub_neg _ h
    constructor <;> linarith

theorem fmod_div_nonneg (a : ℚ) (ha : 0 ≤ a) : 0 ≤ fmod a 360 / 360 := by
  rw [fmod_div]
  exact (truncate_sub_nonneg _ (div_nonneg ha (by norm_num))).1

theorem fmod_div_nonpos (a : ℚ) (ha : a ≤ 0) : fmod a 360 / 360 ≤ 0 := by
  rw [fmod_div]
  rcases lt_or_eq_of_le ha with h | h
  · exact (truncate_sub_neg _ (div_neg_of_neg_of_pos h (by norm_num))).2
  · subst h
    simp [truncate]

/-- The remainder is zero only at whole multiples of 360. -/
theorem fmod_div_eq_zero (a : ℚ) (h : fmod a 360 / 360 = 0) :
    a = 360 * (truncate (a / 360) : ℚ) := by
  rw [fmod_div] at h
  field_simp at h
  linarith

/-- The start fraction the code computes lies in `[0, 1)` and is the
non-negative remainder. -/
theorem conicStart_eq (a : ℚ) :
    (if fmod a 360 / 360 < 0 then fmod a 360 / 360 + 1 else fmod a 360 / 360)
      = rotationFraction a := by
  have hrot : rotationFraction a = Int.fract (a / 360) := by
    unfold rotationFraction Int.fract
    field_simp
  rw [hrot]
  symm
  rw [Int.fract_eq_iff]
  have hb := fmod_div_bounds a
  split_ifs with h
  · refine ⟨by linarith, by linarith, truncate (a / 360) - 1, ?_⟩
    rw [fmod_div]
    push_cast
    ring
  · refine ⟨not_lt.1 h, hb.2, truncate (a / 360), ?_⟩
    rw [fmod_div]
    ring

theorem rotationFraction_bounds (a : ℚ) : 0 ≤ rotationFraction a ∧ rotationFraction a < 1 := by
  have hrot : rotationFraction a = Int.fract (a / 360) := by
    unfold rotationFraction Int.fract
    field_simp
  rw [hrot]
  exact ⟨Int.fract_nonneg _, Int.fract_lt_one _⟩

theorem fmod_neg_ninety : fmod (-90) 360 = -90 := by
  have h : truncate ((-90 : ℚ) / 360) = 0 := by
    have hneg : ¬ (0 : ℚ) ≤ (-90 : ℚ) / 360 := by norm_num
    simp only [truncate, hneg, if_false]
    rw [Int.ceil_eq_iff]
    norm_num
  unfold fmod
  rw [h]
  norm_num

theorem fmod_three_sixty : fmod 360 360 = 0 := by
  have h : truncate ((360 : ℚ) / 360) = 1 := by
    have hpos : (0 : ℚ) ≤ (360 : ℚ) / 360 := by norm_num
    simp only [truncate, hpos, if_true]
    rw [Int.floor_eq_iff]
    norm_num
  unfold fmod
  rw [h]
  norm_num

/-! ### Materials: claims -/

/-- C5: for each of the three material kinds, every prior material state, every
rect and every gradient (numbers taken exactly): `setGradient` returns true if
and only if the gradient's stops differ from the stored stops, or its spread
differs from the stored spread, or the geometry computed from rect and
gradient differs from the stored geometry; and after the call the stored
stops, spread and geometry are the gradient's stops, its spread and the
computed geometry. -/
theorem setGradient_changed_iff (rect : QRectF) (g : QskGradient) :
    (∀ m : LinearMaterial,
        ((m.setGradient rect g).1 = true ↔
            (g.stops ≠ m.m_stops ∨ g.spread ≠ m.m_spread
              ∨ linearGeometry rect g ≠ m.m_gradientVector))
          ∧ (m.setGradient rect g).2.m_stops = g.stops
          ∧ (m.setGradient rect g).2.m_spread = g.spread
          ∧ (m.setGradient rect g).2.m_gradientVector = linearGeometry rect g)
      ∧ (∀ m : RadialMaterial,
        ((m.setGradient rect g).1 = true ↔
            (g.stops ≠ m.m_stops ∨ g.spread ≠ m.m_spread
              ∨ radialGeometry rect g ≠ (m.m_center, m.m_radius)))
          ∧ (m.setGradient rect g).2.m_stops = g.stops
          ∧ (m.setGradient rect g).2.m_spread = g.spread
          ∧ ((m.setGradient rect g).2.m_center, (m.setGradient rect g).2.m_radius)
              = radialGeometry rect g)
      ∧ (∀ m : ConicMaterial,
        ((m.setGradient rect g).1 = true ↔
            (g.stops ≠ m.m_stops ∨ g.spread ≠ m.m_spread
              ∨ conicGeometry rect g ≠ (m.m_center, m.m_start, m.m_span)))
          ∧ (m.setGradient rect g).2.m_stops = g.stops
          ∧ (m.setGradient rect g).2.m_spread = g.spread
          ∧ ((m.setGradient rect g).2.m_center, (m.setGradient rect g).2.m_start,
              (m.setGradient rect g).2.m_span) = conicGeometry rect g) := by
  refine ⟨?_, ?_, ?_⟩
  · intro m
    rw [linear_setGradient_eq]
    simp
  · intro m
    rw [radial_setGradient_eq]
    simp
  · intro m
    rw [conic_setGradient_eq]
    simp

/-- C9: conic start-angle normalisation. For every material state, rect and
start angle `a` in degrees (numbers taken exactly), `ConicMaterial::setGradient`
stores start = fmod(a, 360) / 360, plus 1 when that value is negative; the
stored start lies in [0, 1) and is (a mod 360) / 360 with the non-negative
remainder; and a = -90 stores 3/4. -/
theorem conic_setGradient_start (m : ConicMaterial) (rect : QRectF) (a : ℚ)
    (type : GradientType) (stops : QskGradientStops) (spread : Spread)
    (ld : QskLinearDirection) (rd : QskRadialDirection) (center : QPointF) (span : ℚ) :
    (m.setGradient rect ⟨type, stops, spread, ld, rd, ⟨center, a, span⟩⟩).2.m_start
        = (if fmod a 360 / 360 < 0 then fmod a 360 / 360 + 1 else fmod a 360 / 360)
      ∧ 0 ≤ (m.setGradient rect ⟨type, stops, spread, ld, rd, ⟨center, a, span⟩⟩).2.m_start
      ∧ (m.setGradient rect ⟨type, stops, spread, ld, rd, ⟨center, a, span⟩⟩).2.m_start < 1
      ∧ (m.setGradient rect ⟨type, stops, spread, ld, rd, ⟨center, a, span⟩⟩).2.m_start
          = rotationFraction a
      ∧ (m.setGradient rect ⟨type, stops, spread, ld, rd, ⟨center, -90, span⟩⟩).2.m_start
          = 3 / 4 := by
  have hstored : ∀ b : ℚ,
      (m.setGradient rect ⟨type, stops, spread, ld, rd, ⟨center, b, span⟩⟩).2.m_start
        = (if fmod b 360 / 360 < 0 then fmod b 360 / 360 + 1 else fmod b 360 / 360) := by
    intro b
    rw [conic_setGradient_eq]
    rfl
  have hb := rotationFraction_bounds a
  refine ⟨hstored a, ?_, ?_, ?_, ?_⟩
  · rw [hstored a, conicStart_eq]
    exact hb.1
  · rw [hstored a, conicStart_eq]
    exact hb.2
  · rw [hstored a, conicStart_eq]
  · rw [hstored (-90), fmod_neg_ninety]
    norm_num

/-! ### Uniform buffers -/

theorem memcpy_at_prefix (pre rest src : List Nat) (offset n : Nat)
    (hpre : pre.length = offset) (hsrc : src.length = n) :
    memcpy (pre ++ rest) offset src n = pre ++ src ++ rest.drop n := by
  subst hpre
  subst hsrc
  unfold memcpy
  rw [List.take_left, List.take_length, List.drop_append]

theorem memcpy_at_zero (data src : List Nat) (n : Nat) (hsrc : src.length = n) :
    memcpy data 0 src n = src ++ data.drop n := by
  simpa using memcpy_at_prefix [] data src 0 n rfl hsrc

theorem FloatLayout.length_flatMap (layout : FloatLayout) (l : List ℚ) :
    (l.flatMap layout.bytes).length = 4 * l.length := by
  induction l with
  | nil => rfl
  | cons a l ih =>
    rw [List.flatMap_cons, List.length_append, ih, layout.size, List.length_cons]
    ring

theorem QMatrix4x4.length_constData (layout : FloatLayout) (matrix : QMatrix4x4) :
    (matrix.constData layout).length = 64 := by
  unfold QMatrix4x4.constData
  rw [layout.length_flatMap, List.length_ofFn]

theorem vector2D_length_bytes (layout : FloatLayout) (v : QVector2D) :
    (v.bytes layout).length = 8 := by
  simp [QVector2D.bytes, layout.size]

theorem vector4D_length_bytes (layout : FloatLayout) (v : QVector4D) :
    (v.bytes layout).length = 16 := by
  simp [QVector4D.bytes, layout.size]

/-- C13: the fixed uniform byte layout. For each of the three shaders of the
modern pipeline, every float layout and every render state with a buffer of
at least 84 bytes where matrix and opacity are dirty and there is no old
material: after `updateUniformData` the buffer is the 64 bytes of the 16
matrix floats, then the 16 bytes of the kind payload (linear: the 16 bytes of
the vector; radial: 8 bytes of the center, then 8 bytes of the radius; conic:
8 bytes of the center, then 4 bytes of the start, then 4 bytes of the span),
then the 4 bytes of the opacity, then the bytes the buffer had from offset 84
on; so the payload parts fill the bytes 64 to 79 without gap or overlap, the
opacity the bytes 80 to 83, and no byte from offset 84 on is written. -/
theorem updateUniformData_layout (layout : FloatLayout) (state : RenderState)
    (hmatrix : state.isMatrixDirty = true) (hopacity : state.isOpacityDirty = true)
    (hlen : 84 ≤ state.uniformData.length) :
    (state.combinedMatrix.constData layout).length = 64
      ∧ (layout.bytes state.opacity).length = 4
      ∧ (∀ matNew : LinearMaterial,
          (LinearShaderRhi.updateUniformData layout state matNew none).2
              = state.combinedMatrix.constData layout
                ++ matNew.m_gradientVector.bytes layout
                ++ layout.bytes state.opacity
                ++ state.uniformData.drop 84
            ∧ (matNew.m_gradientVector.bytes layout).length = 16
            ∧ (LinearShaderRhi.updateUniformData layout state matNew none).2.length
                = state.uniformData.length)
      ∧ (∀ matNew : RadialMaterial,
          (RadialShaderRhi.updateUniformData layout state matNew none).2
              = state.combinedMatrix.constData layout
                ++ matNew.m_center.bytes layout
                ++ matNew.m_radius.bytes layout
                ++ layout.bytes state.opacity
                ++ state.uniformData.drop 84
            ∧ (matNew.m_center.bytes layout).length = 8
            ∧ (matNew.m_radius.bytes layout).length = 8
            ∧ (RadialShaderRhi.updateUniformData layout state matNew none).2.length
                = state.uniformData.length)
      ∧ (∀ matNew : ConicMaterial,
          (ConicShaderRhi.updateUniformData layout state matNew none).2
              = state.combinedMatrix.constData layout
                ++ matNew.m_center.bytes layout
                ++ layout.bytes matNew.m_start
                ++ layout.bytes matNew.m_span
                ++ layout.bytes state.opacity
                ++ state.uniformData.drop 84
            ∧ (matNew.m_center.bytes layout).length = 8
            ∧ (layout.bytes matNew.m_start).length = 4
            ∧ (layout.bytes matNew.m_span).length = 4
            ∧ (ConicShaderRhi.updateUniformData layout state matNew none).2.length
                = state.uniformData.length) := by
  have hM := state.combinedMatrix.length_constData layout
  have hO := layout.size state.opacity
  have hdrop : (state.uniformData.drop 84).length = state.uniformData.length - 84 :=
    List.length_drop _ _
  refine ⟨hM, hO, ?_, ?_, ?_⟩
  · intro matNew
    have hV := vector4D_length_bytes layout matNew.m_gradientVector
    have h : (LinearShaderRhi.updateUniformData layout state matNew none).2
        = state.combinedMatrix.constData layout ++ matNew.m_gradientVector.bytes layout
            ++ layout.bytes state.opacity ++ state.uniformData.drop 84 := by
      simp only [LinearShaderRhi.updateUniformData, hmatrix, hopacity, if_true]
      rw [memcpy_at_zero _ _ 64 hM, memcpy_at_prefix _ _ _ 64 16 hM hV,
        memcpy_at_prefix _ _ _ 80 4 (by rw [List.length_append, hM, hV]) hO]
      simp [List.drop_drop]
    refine ⟨h, hV, ?_⟩
    rw [h]
    simp only [List.length_append, hM, hV, hO, hdrop]
    omega
  · intro matNew
    have hC := vector2D_length_bytes layout matNew.m_center
    have hR := vector2D_length_bytes layout matNew.m_radius
    have h : (RadialShaderRhi.updateUniformData layout state matNew none).2
        = state.combinedMatrix.constData layout ++ matNew.m_center.bytes layout
            ++ matNew.m_radius.bytes layout
            ++ layout.bytes state.opacity ++ state.uniformData.drop 84 := by
      simp only [RadialShaderRhi.updateUniformData, hmatrix, hopacity, if_true]
      rw [memcpy_at_zero _ _ 64 hM, memcpy_at_prefix _ _ _ 64 8 hM hC,
        memcpy_at_prefix _ _ _ 72 8 (by rw [List.length_append, hM, hC]) hR,
        memcpy_at_prefix _ _ _ 80 4 (by simp only [List.length_append, hM, hC, hR]) hO]
      simp [List.drop_drop]
    refine ⟨h, hC, hR, ?_⟩
    rw [h]
    simp only [List.length_append, hM, hC, hR, hO, hdrop]
    omega
  · intro matNew
    have hC := vector2D_length_bytes layout matNew.m_center
    have hS := layout.size matNew.m_start
    have hP := layout.size matNew.m_span
    have h : (ConicShaderRhi.updateUniformData layout state matNew none).2
        = state.combinedMatrix.constData layout ++ matNew.m_center.bytes layout
            ++ layout.bytes matNew.m_start ++ layout.bytes matNew.m_span
            ++ layout.bytes state.opacity ++ state.uniformData.drop 84 := by
      simp only [ConicShaderRhi.updateUniformData, hmatrix, hopacity, if_true]
      rw [memcpy_at_zero _ _ 64 hM, memcpy_at_prefix _ _ _ 64 8 hM hC,
        memcpy_at_prefix _ _ _ 72 4 (by rw [List.length_append, hM, hC]) hS,
        memcpy_at_prefix _ _ _ 76 4 (by simp only [List.length_append, hM, hC, hS]) hP,
        memcpy_at_prefix _ _ _ 80 4 (by simp only [List.length_append, hM, hC, hS, hP]) hO]
      simp [List.drop_drop]
    refine ⟨h, hC, hS, hP, ?_⟩
    rw [h]
    simp only [List.length_append, hM, hC, hS, hP, hO, hdrop]
    omega

/-- Witness for C13: in the example state with matrix and opacity dirty the
conic shader fills the first 84 of the 100 bytes and keeps the 16 bytes after
them. -/
theorem updateUniformData_layout_witness :
    exampleStateAll.isMatrixDirty = true
      ∧ exampleStateAll.isOpacityDirty = true
      ∧ 84 ≤ exampleStateAll.uniformData.length
      ∧ (ConicShaderRhi.updateUniformData exampleLayout exampleStateAll
            ConicMaterial.create none).2
          = exampleStateAll.combinedMatrix.constData exampleLayout
              ++ ConicMaterial.create.m_center.bytes exampleLayout
              ++ exampleLayout.bytes ConicMaterial.create.m_start
              ++ exampleLayout.bytes ConicMaterial.create.m_span
              ++ exampleLayout.bytes exampleStateAll.opacity
              ++ List.replicate 16 7 :=
  ⟨rfl, rfl, by decide,
    ((updateUniformData_layout exampleLayout exampleStateAll rfl rfl (by decide)).2.2.2.2
      ConicMaterial.create).1⟩

/-! ### Dispatch and comparison: claims -/

/-- C14: `QskGradientMaterial::createMaterial` maps the kind to the variant. For
Linear, Radial and Conic it returns the freshly constructed material of that
class, whose fixed gradient type is the requested kind; whatever it returns
has the requested kind; and for every other kind it returns null. -/
theorem createMaterial_mapping :
    QskGradientMaterial.createMaterial GradientType.Linear
        = some (Material.linear LinearMaterial.create)
      ∧ QskGradientMaterial.createMaterial GradientType.Radial
        = some (Material.radial RadialMaterial.create)
      ∧ QskGradientMaterial.createMaterial GradientType.Conic
        = some (Material.conic ConicMaterial.create)
      ∧ (∀ kind m, QskGradientMaterial.createMaterial kind = some m → m.gradientType = kind)
      ∧ (∀ kind, kind ≠ GradientType.Linear → kind ≠ GradientType.Radial →
          kind ≠ GradientType.Conic → QskGradientMaterial.createMaterial kind = none) := by
  refine ⟨rfl, rfl, rfl, ?_, ?_⟩
  · intro kind m h
    cases kind <;> simp [QskGradientMaterial.createMaterial] at h <;> subst h <;> rfl
  · intro kind h1 h2 h3
    cases kind <;> simp_all [QskGradientMaterial.createMaterial]

/-- Witness for C14: the kind Linear gives a material of type Linear, and a
value that is none of the three kinds gives null. -/
theorem createMaterial_mapping_witness :
    (Material.linear LinearMaterial.create).gradientType = GradientType.Linear
      ∧ QskGradientMaterial.createMaterial (GradientType.Other 7) = none :=
  ⟨createMaterial_mapping.2.2.2.1 GradientType.Linear _ rfl,
    createMaterial_mapping.2.2.2.2 (GradientType.Other 7) (by decide) (by decide) (by decide)⟩

/-- C15: a kind mismatch is a no-op in release builds. For every material and
every gradient whose type differs from the material's fixed gradient type,
`updateGradient` (assertion compiled out) returns false and leaves the
material as it is; and for a material of each of the three classes, with the
gradient type its constructor fixes, and a gradient of that type,
`updateGradient` returns what `setGradient` of that class returns and leaves
the material as `setGradient` leaves it. -/
theorem updateGradient_dispatch (rect : QRectF) (g : QskGradient) :
    (∀ self : Material, g.type ≠ self.gradientType →
        QskGradientMaterial.updateGradient self rect g = some (false, self))
      ∧ (∀ m : LinearMaterial, m.m_gradientType = GradientType.Linear →
          g.type = GradientType.Linear →
          QskGradientMaterial.updateGradient (Material.linear m) rect g
            = some ((m.setGradient rect g).1, Material.linear (m.setGradient rect g).2))
      ∧ (∀ m : RadialMaterial, m.m_gradientType = GradientType.Radial →
          g.type = GradientType.Radial →
          QskGradientMaterial.updateGradient (Material.radial m) rect g
            = some ((m.setGradient rect g).1, Material.radial (m.setGradient rect g).2))
      ∧ (∀ m : ConicMaterial, m.m_gradientType = GradientType.Conic →
          g.type = GradientType.Conic →
          QskGradientMaterial.updateGradient (Material.conic m) rect g
            = some ((m.setGradient rect g).1, Material.conic (m.setGradient rect g).2)) := by
  refine ⟨?_, ?_, ?_, ?_⟩
  · intro self h
    simp [QskGradientMaterial.updateGradient, h]
  · intro m hm hg
    simp [QskGradientMaterial.updateGradient, Material.gradientType, hm, hg]
  · intro m hm hg
    simp [QskGradientMaterial.updateGradient, Material.gradientType, hm, hg]
  · intro m hm hg
    simp [QskGradientMaterial.updateGradient, Material.gradientType, hm, hg]

/-- Witness for C15: a radial gradient leaves a fresh linear material alone and
reports no change; a linear gradient is passed on to `setGradient`, which
reports a change. -/
theorem updateGradient_dispatch_witness :
    QskGradientMaterial.updateGradient (Material.linear LinearMaterial.create) exampleRect
        (exampleGradient GradientType.Radial)
        = some (false, Material.linear LinearMaterial.create)
      ∧ (QskGradientMaterial.updateGradient (Material.linear LinearMaterial.create) exampleRect
          (exampleGradient GradientType.Linear)).map Prod.fst = some true :=
  ⟨(updateGradient_dispatch exampleRect (exampleGradient GradientType.Radial)).1
      (Material.linear LinearMaterial.create) (by decide),
    by
      rw [(updateGradient_dispatch exampleRect (exampleGradient GradientType.Linear)).2.1
        LinearMaterial.create rfl rfl]
      rw [linear_setGradient_eq]
      decide⟩

theorem qskFuzzyCompare_zero : qskFuzzyCompare 0 0 = true := by
  simp [qskFuzzyCompare, qFuzzyIsNull]

theorem qskFuzzyCompare_quarter : qskFuzzyCompare 0 (1 / 4) = false := by
  have e1 : |(1 / 4 : ℚ)| = 1 / 4 := abs_of_pos (by norm_num)
  simp only [qskFuzzyCompare, qFuzzyIsNull, abs_zero, e1]
  norm_num

theorem qskFuzzyCompare_half : qskFuzzyCompare 1 (1 / 2) = false := by
  have e1 : |(1 : ℚ)| = 1 := abs_of_pos (by norm_num)
  have e2 : |(1 / 2 : ℚ)| = 1 / 2 := abs_of_pos (by norm_num)
  have e3 : |(1 : ℚ) - 1 / 2| = 1 / 2 := by
    rw [abs_of_pos (by norm_num)]
    norm_num
  have e4 : min (1 : ℚ) (1 / 2) = 1 / 2 := min_eq_right (by norm_num)
  simp only [qskFuzzyCompare, qFuzzyIsNull, qFuzzyCompare, e1, e2, e3, e4]
  norm_num

/-- C17, the code at its failing inputs: two distinct fresh conic materials
agree in center, start, span, stops and spread, yet `ConicMaterial::compare`
does not return 0 for them, because the equal start angles pass the
fuzzy-equal test that sends the call to the generic comparison; and two
conic materials that differ in start and span, with everything else equal,
compare as 0. -/
theorem conic_compare_inverted :
    ConicMaterial.compare 1 ConicMaterial.create 2 ConicMaterial.create ≠ 0
      ∧ ConicMaterial.compare 1 (exampleConic 0 1) 2 (exampleConic (1 / 4) (1 / 2)) = 0
      ∧ (exampleConic 0 1).m_start ≠ (exampleConic (1 / 4) (1 / 2)).m_start := by
  refine ⟨?_, ?_, ?_⟩
  · have h : ConicMaterial.compare 1 ConicMaterial.create 2 ConicMaterial.create
        = QSGMaterial.compare 1 2 := by
      unfold ConicMaterial.compare
      rw [if_pos]
      right
      left
      exact qskFuzzyCompare_zero
    rw [h]
    decide
  · unfold ConicMaterial.compare
    rw [if_neg]
    · rfl
    · intro h
      rcases h with h | h | h
      · exact h rfl
      · exact Bool.false_ne_true (qskFuzzyCompare_quarter.symm.trans h)
      · exact Bool.false_ne_true (qskFuzzyCompare_half.symm.trans h)
  · simp [exampleConic, ConicMaterial.create]

theorem truncate_intCast (k : ℤ) : truncate (k : ℚ) = k := by
  unfold truncate
  split_ifs
  · exact Int.floor_intCast k
  · exact Int.ceil_intCast k

theorem fmod_multiple (k : ℤ) : fmod (360 * (k : ℚ)) 360 = 0 := by
  have h : (360 * (k : ℚ)) / 360 = (k : ℚ) := by
    field_simp
  unfold fmod
  rw [h, truncate_intCast]
  ring

/-! ### The combo box: claims -/

theorem wrapInt_of_range (x : Int) (h1 : -2 ^ 31 ≤ x) (h2 : x < 2 ^ 31) : wrapInt x = x := by
  unfold wrapInt
  omega

theorem neg_lt_tmod (a n : Int) (hn : 0 < n) : -n < Int.tmod a n := by
  obtain ⟨k, rfl⟩ := Int.eq_ofNat_of_zero_le (le_of_lt hn)
  cases a with
  | ofNat m =>
    have := Int.tmod_nonneg (k : Int) (Int.ofNat_zero_le m)
    show -(k : Int) < Int.tmod (m : Int) (k : Int)
    omega
  | negSucc m =>
    have hk : 0 < k := by exact_mod_cast hn
    have hlt := Nat.mod_lt (m + 1) hk
    show -(k : Int) < -((((m + 1) % k : Nat)) : Int)
    omega

/-- The C remainder, moved up by the modulus when negative, is the
non-negative remainder. -/
theorem tmod_shift_eq_emod (a n : Int) (hn : 0 < n) :
    (if Int.tmod a n < 0 then Int.tmod a n + n else Int.tmod a n) = a % n := by
  have hlo := neg_lt_tmod a n hn
  have hhi := Int.tmod_lt_of_pos a hn
  have hdiv := Int.tmod_add_tdiv a n
  have hmod : a % n = Int.tmod a n % n := by
    conv_lhs => rw [← hdiv]
    exact Int.add_mul_emod_self_left _ _ _
  rw [hmod]
  split_ifs with h
  · rw [← Int.add_emod_self, Int.emod_eq_of_lt (by omega) (by omega)]
  · rw [Int.emod_eq_of_lt (by omega) hhi]

theorem setCurrentIndex_currentIndex (box : QskComboBox) (index : Int) :
    (box.setCurrentIndex index).currentIndex = index
      ∧ (box.setCurrentIndex index).options = box.options := by
  unfold QskComboBox.setCurrentIndex
  split_ifs with h
  · exact ⟨rfl, rfl⟩
  · push_neg at h
    exact ⟨h, rfl⟩

/-- C19: option traversal wraps into range. For every combo box and every step
count: with no options the combo box is left as it is; with count > 0, where
count, current index (any value, -1 for no selection included) and steps are
C ints and neither `steps + 1` nor `index + steps` overflows, after
`qskTraverseOptions` the current index lies in [0, count) and is the
non-negative remainder of index + steps modulo count, with one step more when
the index is -1 and the steps are negative; the options are untouched. -/
theorem qskTraverseOptions_wraps (comboBox : QskComboBox) (steps : Int) :
    (comboBox.count = 0 → qskTraverseOptions comboBox steps = comboBox)
      ∧ (0 < comboBox.count → comboBox.count < 2 ^ 31 →
          -2 ^ 31 ≤ comboBox.currentIndex → comboBox.currentIndex < 2 ^ 31 →
          -2 ^ 31 ≤ steps → steps < 2 ^ 31 →
          -2 ^ 31 ≤ comboBox.currentIndex + traverseSteps comboBox.currentIndex steps →
          comboBox.currentIndex + traverseSteps comboBox.currentIndex steps < 2 ^ 31 →
          0 ≤ (qskTraverseOptions comboBox steps).currentIndex
            ∧ (qskTraverseOptions comboBox steps).currentIndex < comboBox.count
            ∧ (qskTraverseOptions comboBox steps).currentIndex
                = (comboBox.currentIndex + traverseSteps comboBox.currentIndex steps)
                    % comboBox.count
            ∧ (qskTraverseOptions comboBox steps).options = comboBox.options) := by
  constructor
  · intro h
    simp [qskTraverseOptions, h]
  · intro hpos hcount hi1 hi2 hs1 hs2 hsum1 hsum2
    have hne : comboBox.count ≠ 0 := ne_of_gt hpos
    have hsteps : (if comboBox.currentIndex = -1 ∧ steps < 0 then wrapInt (steps + 1) else steps)
        = traverseSteps comboBox.currentIndex steps := by
      unfold traverseSteps
      split_ifs with h
      · exact wrapInt_of_range _ (by omega) (by omega)
      · rfl
    have hsum := wrapInt_of_range _ hsum1 hsum2
    have hlo := neg_lt_tmod
      (comboBox.currentIndex + traverseSteps comboBox.currentIndex steps) comboBox.count hpos
    have hhi := Int.tmod_lt_of_pos
      (comboBox.currentIndex + traverseSteps comboBox.currentIndex steps) hpos
    have hshift := tmod_shift_eq_emod
      (comboBox.currentIndex + traverseSteps comboBox.currentIndex steps) comboBox.count hpos
    have hnext : (if Int.tmod
          (comboBox.currentIndex + traverseSteps comboBox.currentIndex steps) comboBox.count < 0
        then wrapInt (Int.tmod
          (comboBox.currentIndex + traverseSteps comboBox.currentIndex steps) comboBox.count
            + comboBox.count)
        else Int.tmod
          (comboBox.currentIndex + traverseSteps comboBox.currentIndex steps) comboBox.count)
        = (comboBox.currentIndex + traverseSteps comboBox.currentIndex steps)
            % comboBox.count := by
      rw [← hshift]
      split_ifs with h
      · exact wrapInt_of_range _ (by omega) (by omega)
      · rfl
    have hresult : (qskTraverseOptions comboBox steps).currentIndex
          = (comboBox.currentIndex + traverseSteps comboBox.currentIndex steps)
              % comboBox.count
        ∧ (qskTraverseOptions comboBox steps).options = comboBox.options := by
      simp only [qskTraverseOptions, hne, if_false, hsteps, hsum, hnext]
      split_ifs with h
      · exact setCurrentIndex_currentIndex _ _
      · push_neg at h
        exact ⟨h.symm, rfl⟩
    refine ⟨?_, ?_, hresult.1, hresult.2⟩
    · rw [hresult.1]
      exact Int.emod_nonneg _ hne
    · rw [hresult.1]
      exact Int.emod_lt_of_pos _ hpos

/-- Witness for C19: in the example combo box with three options and no
selection one step back selects the last option, index 2, and two steps back
the option before it, index 1. -/
theorem qskTraverseOptions_wraps_witness :
    0 < exampleComboBox.count
      ∧ (qskTraverseOptions exampleComboBox (-1)).currentIndex = 2
      ∧ (qskTraverseOptions exampleComboBox (-2)).currentIndex = 1
      ∧ (qskTraverseOptions exampleComboBox (-2)).currentIndex
          = (exampleComboBox.currentIndex + traverseSteps exampleComboBox.currentIndex (-2))
              % exampleComboBox.count :=
  ⟨by decide, by decide, by decide,
    ((qskTraverseOptions_wraps exampleComboBox (-2)).2 (by decide) (by decide) (by decide)
      (by decide) (by decide) (by decide) (by decide) (by decide)).2.2.1⟩

/-- C20, the code at its failing inputs: the combo box whose current index was
set to 0 while it had no options, and the combo box whose selected option was
cleared away, are reached through `addOption`, `clear` and `setCurrentIndex`
only; in both the current index is neither negative nor below the count,
`optionAt` of it is the empty list, and `currentText` and `graphic` read the
elements 1 and 0 outside that list. -/
theorem comboBox_index_out_of_range :
    ¬ (exampleComboBoxEmpty.currentIndex < 0
        ∨ exampleComboBoxEmpty.currentIndex < exampleComboBoxEmpty.count)
      ∧ exampleComboBoxEmpty.optionAt exampleComboBoxEmpty.currentIndex = []
      ∧ exampleComboBoxEmpty.currentText = none
      ∧ exampleComboBoxEmpty.graphic = none
      ∧ ¬ (exampleComboBoxCleared.currentIndex < 0
        ∨ exampleComboBoxCleared.currentIndex < exampleComboBoxCleared.count)
      ∧ exampleComboBoxCleared.currentText = none
      ∧ exampleComboBoxCleared.graphic = none := by
  refine ⟨by decide, by decide, by decide, by decide, by decide, by decide, by decide⟩


/-! ### Floating-point arithmetic: rounding -/

namespace Fp

theorem log2Fuel_bounds (fuel n : Nat) (hfuel : n ≤ fuel) (hn : 1 ≤ n) :
    2 ^ log2Fuel fuel n ≤ n ∧ n < 2 ^ (log2Fuel fuel n + 1) := by
  induction fuel generalizing n with
  | zero => omega
  | succ fuel ih =>
    unfold log2Fuel
    split_ifs with h
    · have h2 := ih (n / 2) (by omega) (by omega)
      constructor
      · have := h2.1
        rw [pow_succ]
        omega
      · have := h2.2
        rw [pow_succ]
        omega
    · constructor
      · simpa using hn
      · simp
        omega

theorem log2_bounds (n : Nat) (hn : 1 ≤ n) : 2 ^ log2 n ≤ n ∧ n < 2 ^ (log2 n + 1) :=
  log2Fuel_bounds n n (le_refl n) hn

theorem log2_mono (n d : Nat) (hn : 1 ≤ n) (hnd : n ≤ d) : log2 n ≤ log2 d := by
  have h1 := (log2_bounds n hn).1
  have h2 := (log2_bounds d (le_trans hn hnd)).2
  have h3 : 2 ^ log2 n < 2 ^ (log2 d + 1) := lt_of_le_of_lt (le_trans h1 hnd) h2
  have := (Nat.pow_lt_pow_iff_right (by norm_num : 1 < 2)).1 h3
  omega

theorem pow2_eq (u : Int) : pow2 u = (2 : ℚ) ^ u := by
  unfold pow2
  split_ifs with h
  · obtain ⟨k, rfl⟩ := Int.eq_ofNat_of_zero_le h
    simp
  · push_neg at h
    obtain ⟨k, hk⟩ := Int.eq_ofNat_of_zero_le (by omega : 0 ≤ -u)
    have hu : u = -(k : Int) := by omega
    subst hu
    simp

theorem pow2_pos (u : Int) : 0 < pow2 u := by
  rw [pow2_eq]
  positivity

theorem pow2_add (a b : Int) : pow2 (a + b) = pow2 a * pow2 b := by
  rw [pow2_eq, pow2_eq, pow2_eq, zpow_add₀ (by norm_num)]

theorem pow2_mono (a b : Int) (h : a ≤ b) : pow2 a ≤ pow2 b := by
  rw [pow2_eq, pow2_eq]
  exact zpow_le_zpow_right₀ (by norm_num) h

theorem pow2_natCast (k : Nat) : pow2 (k : Int) = ((2 ^ k : Nat) : ℚ) := by
  rw [pow2_eq]
  simp

theorem exponent_le_zero (n d : Nat) (hn : 1 ≤ n) (hnd : n ≤ d) : exponent n d ≤ 0 := by
  have h := log2_mono n d hn hnd
  unfold exponent
  simp only
  split_ifs <;> omega

theorem pow2_exponent_le (n d : Nat) (hn : 1 ≤ n) (hd : 1 ≤ d) :
    pow2 (exponent n d) ≤ (n : ℚ) / (d : ℚ) := by
  have hdpos : (0 : ℚ) < (d : ℚ) := by exact_mod_cast hd
  have hlow : pow2 ((log2 n : Int) - (log2 d : Int) - 1) ≤ (n : ℚ) / (d : ℚ) := by
    have h1 : ((2 ^ log2 n : Nat) : ℚ) ≤ (n : ℚ) := by exact_mod_cast (log2_bounds n hn).1
    have h2 : (d : ℚ) ≤ ((2 ^ (log2 d + 1) : Nat) : ℚ) := by
      exact_mod_cast le_of_lt (log2_bounds d hd).2
    have e : pow2 ((log2 n : Int) - (log2 d : Int) - 1)
        = ((2 ^ log2 n : Nat) : ℚ) / ((2 ^ (log2 d + 1) : Nat) : ℚ) := by
      rw [← pow2_natCast, ← pow2_natCast, pow2_eq, pow2_eq, pow2_eq, ← zpow_sub₀ (by norm_num)]
      congr 1
      push_cast
      ring
    rw [e]
    exact div_le_div₀ (by positivity) h1 hdpos h2
  unfold exponent
  simp only
  split_ifs with h0 h1 h1
  · obtain ⟨k, hk⟩ := Int.eq_ofNat_of_zero_le h0
    rw [hk] at h1 ⊢
    rw [pow2_natCast, le_div_iff₀ hdpos]
    simp only [Int.toNat_ofNat] at h1
    exact_mod_cast h1
  · exact hlow
  · obtain ⟨k, hk⟩ := Int.eq_ofNat_of_zero_le (by omega : 0 ≤ -((log2 n : Int) - (log2 d : Int)))
    have hk2 : (log2 n : Int) - (log2 d : Int) = -(k : Int) := by omega
    rw [hk] at h1
    rw [hk2]
    simp only [Int.toNat_ofNat] at h1
    have hkpos : (0 : ℚ) < ((2 ^ k : Nat) : ℚ) := by positivity
    have e : pow2 (-(k : Int)) = 1 / ((2 ^ k : Nat) : ℚ) := by
      rw [pow2_eq, zpow_neg, ← pow2_eq, pow2_natCast]
      simp
    rw [e, div_le_div_iff₀ hkpos hdpos]
    have : ((d : Nat) : ℚ) ≤ ((n * 2 ^ k : Nat) : ℚ) := by exact_mod_cast h1
    push_cast at this ⊢
    linarith
  · exact hlow

theorem roundHalfEven_ge (n d k : Nat) (h : k * d ≤ n) (hd : 1 ≤ d) :
    k ≤ roundHalfEven n d := by
  have hq : k ≤ n / d := (Nat.le_div_iff_mul_le hd).2 h
  unfold roundHalfEven
  split_ifs <;> omega

theorem roundHalfEven_le (n d k : Nat) (h : n ≤ k * d) (hd : 1 ≤ d) :
    roundHalfEven n d ≤ k := by
  have hq : n / d ≤ k := by
    calc n / d ≤ k * d / d := Nat.div_le_div_right h
      _ = k := Nat.mul_div_cancel k hd
  rcases Nat.lt_or_eq_of_le hq with hlt | heq
  · unfold roundHalfEven
    split_ifs <;> omega
  · have hmod : n % d = 0 := by
      have h1 := Nat.div_add_mod n d
      rw [heq] at h1
      have h2 : d * k = k * d := Nat.mul_comm d k
      omega
    unfold roundHalfEven
    rw [hmod]
    simp only [Nat.mul_zero]
    rw [if_pos (by omega)]
    omega

/-- The unit in the last place of the rounded fraction `n / d`. -/
theorem roundMagnitude_spec (fmt : Format) (n d : Nat) (hd : 1 ≤ d) :
    ∃ N D : Nat, 1 ≤ D
      ∧ (N : ℚ) / (D : ℚ)
          = ((n : ℚ) / (d : ℚ))
              / pow2 (max (exponent n d) fmt.emin - ((fmt.prec : Int) - 1))
      ∧ roundMagnitude fmt n d
          = (roundHalfEven N D : ℚ)
              * pow2 (max (exponent n d) fmt.emin - ((fmt.prec : Int) - 1)) := by
  have hdpos : (0 : ℚ) < (d : ℚ) := by exact_mod_cast hd
  by_cases hu : 0 ≤ max (exponent n d) fmt.emin - ((fmt.prec : Int) - 1)
  · obtain ⟨k, hk⟩ := Int.eq_ofNat_of_zero_le hu
    refine ⟨n, d * 2 ^ k, ?_, ?_, ?_⟩
    · exact Nat.one_le_iff_ne_zero.2 (Nat.mul_ne_zero (by omega) (by positivity))
    · rw [hk, pow2_natCast]
      push_cast
      rw [div_div]
    · unfold roundMagnitude
      simp only [hu, if_true]
      rw [hk]
      simp
  · obtain ⟨k, hk⟩ := Int.eq_ofNat_of_zero_le
      (by omega : 0 ≤ -(max (exponent n d) fmt.emin - ((fmt.prec : Int) - 1)))
    have hk2 : max (exponent n d) fmt.emin - ((fmt.prec : Int) - 1) = -(k : Int) := by omega
    refine ⟨n * 2 ^ k, d, hd, ?_, ?_⟩
    · rw [hk2, pow2_eq, zpow_neg]
      push_cast
      field_simp
    · unfold roundMagnitude
      simp only [hu, if_false]
      rw [hk]
      simp

theorem roundMagnitude_ge (fmt : Format) (n d k : Nat) (hd : 1 ≤ d)
    (h : (k : ℚ) * pow2 (max (exponent n d) fmt.emin - ((fmt.prec : Int) - 1))
      ≤ (n : ℚ) / (d : ℚ)) :
    (k : ℚ) * pow2 (max (exponent n d) fmt.emin - ((fmt.prec : Int) - 1))
      ≤ roundMagnitude fmt n d := by
  obtain ⟨N, D, hD, hND, hr⟩ := roundMagnitude_spec fmt n d hd
  have hpos := pow2_pos (max (exponent n d) fmt.emin - ((fmt.prec : Int) - 1))
  have hDpos : (0 : ℚ) < (D : ℚ) := by exact_mod_cast hD
  have h1 : (k : ℚ) ≤ (N : ℚ) / (D : ℚ) := by
    rw [hND, le_div_iff₀ hpos]
    exact h
  have h2 : k * D ≤ N := by
    rw [le_div_iff₀ hDpos] at h1
    exact_mod_cast h1
  have h3 := roundHalfEven_ge N D k h2 hD
  rw [hr]
  exact mul_le_mul_of_nonneg_right (by exact_mod_cast h3) (le_of_lt hpos)

theorem roundMagnitude_le (fmt : Format) (n d k : Nat) (hd : 1 ≤ d)
    (h : (n : ℚ) / (d : ℚ)
      ≤ (k : ℚ) * pow2 (max (exponent n d) fmt.emin - ((fmt.prec : Int) - 1))) :
    roundMagnitude fmt n d
      ≤ (k : ℚ) * pow2 (max (exponent n d) fmt.emin - ((fmt.prec : Int) - 1)) := by
  obtain ⟨N, D, hD, hND, hr⟩ := roundMagnitude_spec fmt n d hd
  have hpos := pow2_pos (max (exponent n d) fmt.emin - ((fmt.prec : Int) - 1))
  have hDpos : (0 : ℚ) < (D : ℚ) := by exact_mod_cast hD
  have h1 : (N : ℚ) / (D : ℚ) ≤ (k : ℚ) := by
    rw [hND, div_le_iff₀ hpos]
    exact h
  have h2 : N ≤ k * D := by
    rw [div_le_iff₀ hDpos] at h1
    exact_mod_cast h1
  have h3 := roundHalfEven_le N D k h2 hD
  rw [hr]
  exact mul_le_mul_of_nonneg_right (by exact_mod_cast h3) (le_of_lt hpos)

theorem roundMagnitude_nonneg (fmt : Format) (n d : Nat) : 0 ≤ roundMagnitude fmt n d := by
  unfold roundMagnitude
  exact mul_nonneg (by positivity) (le_of_lt (pow2_pos _))

/-- A fraction of at most 1 is rounded to at most 1. -/
theorem roundMagnitude_le_one (fmt : Format) (n d : Nat) (hn : 1 ≤ n) (hnd : n ≤ d)
    (hmin : fmt.emin ≤ 0) (hprec : 1 ≤ fmt.prec) : roundMagnitude fmt n d ≤ 1 := by
  have hd : 1 ≤ d := le_trans hn hnd
  have hdpos : (0 : ℚ) < (d : ℚ) := by exact_mod_cast hd
  have he := exponent_le_zero n d hn hnd
  have hu : max (exponent n d) fmt.emin - ((fmt.prec : Int) - 1) ≤ 0 := by
    have : max (exponent n d) fmt.emin ≤ 0 := max_le he hmin
    omega
  obtain ⟨k, hk⟩ := Int.eq_ofNat_of_zero_le
    (by omega : 0 ≤ -(max (exponent n d) fmt.emin - ((fmt.prec : Int) - 1)))
  have hk2 : max (exponent n d) fmt.emin - ((fmt.prec : Int) - 1) = -(k : Int) := by omega
  have hone : ((2 ^ k : Nat) : ℚ)
      * pow2 (max (exponent n d) fmt.emin - ((fmt.prec : Int) - 1)) = 1 := by
    rw [hk2, ← pow2_natCast, ← pow2_add]
    simp [pow2]
  have h := roundMagnitude_le fmt n d (2 ^ k) hd (by
    rw [hone, div_le_one hdpos]
    exact_mod_cast hnd)
  rw [hone] at h
  exact h

/-- A fraction of at least `2 ^ t`, where `2 ^ t` is a number of the format, is
rounded to at least `2 ^ t`. -/
theorem roundMagnitude_ge_pow2 (fmt : Format) (n d : Nat) (hn : 1 ≤ n) (hd : 1 ≤ d)
    (hprec : 1 ≤ fmt.prec) (t : Int) (ht : fmt.emin - ((fmt.prec : Int) - 1) ≤ t)
    (h : pow2 t ≤ (n : ℚ) / (d : ℚ)) : pow2 t ≤ roundMagnitude fmt n d := by
  by_cases htu : max (exponent n d) fmt.emin - ((fmt.prec : Int) - 1) ≤ t
  · obtain ⟨k, hk⟩ := Int.eq_ofNat_of_zero_le
      (by omega : 0 ≤ t - (max (exponent n d) fmt.emin - ((fmt.prec : Int) - 1)))
    have hone : ((2 ^ k : Nat) : ℚ)
        * pow2 (max (exponent n d) fmt.emin - ((fmt.prec : Int) - 1)) = pow2 t := by
      rw [← pow2_natCast, ← pow2_add, ← hk]
      congr 1
      ring
    have := roundMagnitude_ge fmt n d (2 ^ k) hd (by rw [hone]; exact h)
    rw [hone] at this
    exact this
  · push_neg at htu
    have hmax : max (exponent n d) fmt.emin = exponent n d := by
      rcases le_total (exponent n d) fmt.emin with hle | hle
      · rw [max_eq_right hle] at htu
        omega
      · exact max_eq_left hle
    have hex := pow2_exponent_le n d hn hd
    have h1 : ((1 : Nat) : ℚ)
        * pow2 (max (exponent n d) fmt.emin - ((fmt.prec : Int) - 1)) ≤ (n : ℚ) / (d : ℚ) := by
      rw [Nat.cast_one, one_mul, hmax]
      exact le_trans (pow2_mono _ _ (by omega)) hex
    have h2 := roundMagnitude_ge fmt n d 1 hd h1
    rw [Nat.cast_one, one_mul] at h2
    exact le_trans (pow2_mono _ _ (le_of_lt htu)) h2

theorem abs_eq_natAbs_div (q : ℚ) : |q| = (q.num.natAbs : ℚ) / (q.den : ℚ) := by
  rw [Rat.abs_def, Rat.divInt_eq_div]
  simp [Nat.cast_natAbs, Int.cast_abs]

theorem round_zero (fmt : Format) : round fmt 0 = Num.fin 0 := by
  simp [round]

/-- Rounding a number of magnitude at most 1: the result is finite, of
magnitude at most 1, on the same side of zero, and not below a power of two
of the format that the number is not below. -/
theorem round_unit (fmt : Format) (hmin : fmt.emin ≤ 0) (hprec : 1 ≤ fmt.prec)
    (hmax : 0 ≤ fmt.emax) (q : ℚ) (hq : |q| ≤ 1) :
    ∃ r, round fmt q = Num.fin r ∧ |r| ≤ 1 ∧ (0 ≤ q → 0 ≤ r) ∧ (q ≤ 0 → r ≤ 0)
      ∧ ∀ t : Int, fmt.emin - ((fmt.prec : Int) - 1) ≤ t → pow2 t ≤ |q| → pow2 t ≤ |r| := by
  by_cases h0 : q = 0
  · subst h0
    refine ⟨0, round_zero fmt, by simp, fun _ => le_refl _, fun _ => le_refl _, ?_⟩
    intro t _ h
    have := pow2_pos t
    simp at h
    linarith
  · have hd : 1 ≤ q.den := q.den_pos
    have hn : 1 ≤ q.num.natAbs := by
      have : q.num ≠ 0 := Rat.num_ne_zero.2 h0
      omega
    have habs := abs_eq_natAbs_div q
    have hdpos : (0 : ℚ) < (q.den : ℚ) := by exact_mod_cast hd
    have hnd : q.num.natAbs ≤ q.den := by
      rw [habs, div_le_one hdpos] at hq
      exact_mod_cast hq
    have hle := roundMagnitude_le_one fmt q.num.natAbs q.den hn hnd hmin hprec
    have hge := roundMagnitude_nonneg fmt q.num.natAbs q.den
    have hbig : ¬ pow2 (fmt.emax + 1) ≤ roundMagnitude fmt q.num.natAbs q.den := by
      have h1 : pow2 1 ≤ pow2 (fmt.emax + 1) := pow2_mono _ _ (by omega)
      have h2 : pow2 1 = 2 := by
        rw [pow2_eq]
        norm_num
      rw [h2] at h1
      intro h
      linarith
    have hround : round fmt q = Num.fin (if q < 0 then -roundMagnitude fmt q.num.natAbs q.den
        else roundMagnitude fmt q.num.natAbs q.den) := by
      unfold round
      simp only [h0, if_false, hbig]
    refine ⟨_, hround, ?_, ?_, ?_, ?_⟩
    · split_ifs
      · rw [abs_neg, abs_of_nonneg hge]
        exact hle
      · rw [abs_of_nonneg hge]
        exact hle
    · intro hq0
      rw [if_neg (not_lt.2 hq0)]
      exact hge
    · intro hq0
      have : q < 0 := lt_of_le_of_ne hq0 h0
      rw [if_pos this]
      linarith
    · intro t ht hpow
      rw [habs] at hpow
      have := roundMagnitude_ge_pow2 fmt q.num.natAbs q.den hn hd hprec t ht hpow
      split_ifs
      · rw [abs_neg, abs_of_nonneg hge]
        exact this
      · rw [abs_of_nonneg hge]
        exact this

theorem roundHalfEven_eq_zero_iff (n d : Nat) (hd : 1 ≤ d) :
    roundHalfEven n d = 0 ↔ 2 * n ≤ d := by
  by_cases hlt : n < d
  · have hq : n / d = 0 := Nat.div_eq_of_lt hlt
    have hm : n % d = n := Nat.mod_eq_of_lt hlt
    unfold roundHalfEven
    rw [hq, hm]
    constructor
    · intro h
      split_ifs at h <;> omega
    · intro h
      split_ifs <;> omega
  · have hq : 1 ≤ n / d := (Nat.le_div_iff_mul_le hd).2 (by omega)
    constructor
    · intro h
      unfold roundHalfEven at h
      split_ifs at h <;> omega
    · intro h
      omega

/-- A number is rounded to zero exactly when its magnitude is at most half the
smallest positive number of the format. -/
theorem round_eq_zero_iff (fmt : Format) (hprec : 1 ≤ fmt.prec) (q : ℚ) :
    round fmt q = Num.fin 0 ↔ |q| ≤ pow2 (fmt.emin - (fmt.prec : Int)) := by
  by_cases h0 : q = 0
  · subst h0
    simp [round_zero, le_of_lt (pow2_pos _)]
  · have hd : 1 ≤ q.den := q.den_pos
    have hn : 1 ≤ q.num.natAbs := by
      have : q.num ≠ 0 := Rat.num_ne_zero.2 h0
      omega
    have habs := abs_eq_natAbs_div q
    obtain ⟨N, D, hD, hND, hr⟩ := roundMagnitude_spec fmt q.num.natAbs q.den hd
    have hDpos : (0 : ℚ) < (D : ℚ) := by exact_mod_cast hD
    have hupos := pow2_pos (max (exponent q.num.natAbs q.den) fmt.emin - ((fmt.prec : Int) - 1))
    have hmag : roundMagnitude fmt q.num.natAbs q.den = 0 ↔ 2 * N ≤ D := by
      rw [hr, ← roundHalfEven_eq_zero_iff N D hD]
      constructor
      · intro h
        rcases mul_eq_zero.1 h with h | h
        · exact_mod_cast h
        · exact absurd h (ne_of_gt hupos)
      · intro h
        rw [h]
        simp
    have hround : round fmt q = Num.fin 0 ↔ roundMagnitude fmt q.num.natAbs q.den = 0 := by
      unfold round
      simp only [h0, if_false]
      constructor
      · intro h
        split_ifs at h with h1 h2
        · have := Num.fin.inj h
          linarith
        · exact Num.fin.inj h
      · intro h
        rw [h]
        have : ¬ pow2 (fmt.emax + 1) ≤ 0 := not_le.2 (pow2_pos _)
        simp [this]
    have hND_symm : (N : ℚ) / (D : ℚ)
        * pow2 (max (exponent q.num.natAbs q.den) fmt.emin - ((fmt.prec : Int) - 1))
        = (q.num.natAbs : ℚ) / (q.den : ℚ) := by
      rw [hND]
      field_simp
      ring
    have hhalf : 2 * N ≤ D ↔
        |q| ≤ pow2 (max (exponent q.num.natAbs q.den) fmt.emin - ((fmt.prec : Int) - 1) - 1) := by
      have e : pow2 (max (exponent q.num.natAbs q.den) fmt.emin - ((fmt.prec : Int) - 1) - 1)
          = pow2 (max (exponent q.num.natAbs q.den) fmt.emin - ((fmt.prec : Int) - 1)) / 2 := by
        rw [sub_eq_add_neg _ (1 : Int), pow2_add]
        have : pow2 (-1) = 1 / 2 := by
          rw [pow2_eq]
          norm_num
        rw [this]
        ring
      rw [e, habs, ← hND_symm]
      rw [le_div_iff₀ (by norm_num : (0 : ℚ) < 2), mul_comm ((N : ℚ) / (D : ℚ)) _, mul_assoc,
        mul_le_iff_le_one_right hupos, div_mul_eq_mul_div, div_le_one hDpos]
      constructor
      · intro h
        have : ((2 * N : Nat) : ℚ) ≤ (D : ℚ) := by exact_mod_cast h
        push_cast at this
        linarith
      · intro h
        have : ((2 * N : Nat) : ℚ) ≤ (D : ℚ) := by
          push_cast
          linarith
        exact_mod_cast this
    rw [hround, hmag, hhalf]
    rcases le_total (exponent q.num.natAbs q.den) fmt.emin with hle | hle
    · rw [max_eq_right hle]
      have : fmt.emin - ((fmt.prec : Int) - 1) - 1 = fmt.emin - (fmt.prec : Int) := by ring
      rw [this]
    · rw [max_eq_left hle]
      have hex := pow2_exponent_le q.num.natAbs q.den hn hd
      rw [← habs] at hex
      have h1 : pow2 (exponent q.num.natAbs q.den - ((fmt.prec : Int) - 1) - 1)
          < pow2 (exponent q.num.natAbs q.den) := by
        rw [pow2_eq, pow2_eq]
        exact zpow_lt_zpow_right₀ (by norm_num) (by omega)
      have h2 : pow2 (fmt.emin - (fmt.prec : Int)) < pow2 (exponent q.num.natAbs q.den) := by
        rw [pow2_eq, pow2_eq]
        exact zpow_lt_zpow_right₀ (by norm_num) (by omega)
      constructor
      · intro h
        linarith
      · intro h
        linarith

/-! ### Floating-point arithmetic: what `setGradient` computes -/

theorem ne_eq_false (x y : Num) (h : ne x y = false) : x = y := by
  cases x <;> cases y <;> simp_all [ne]

theorem ne_self (x : Num) : ne x x = x.isNaN := by
  cases x <;> simp [ne, Num.isNaN]

theorem vector2D_ne_eq_false (v1 v2 : QVector2D) (h : v1.ne v2 = false) : v1 = v2 := by
  obtain ⟨x1, y1⟩ := v1
  obtain ⟨x2, y2⟩ := v2
  simp only [QVector2D.ne, Bool.or_eq_false_iff] at h
  rw [ne_eq_false _ _ h.1, ne_eq_false _ _ h.2]

theorem vector2D_ne_self (v : QVector2D) : v.ne v = v.hasNaN := by
  simp [QVector2D.ne, QVector2D.hasNaN, ne_self]

theorem vector4D_ne_eq_false (v1 v2 : QVector4D) (h : v1.ne v2 = false) : v1 = v2 := by
  obtain ⟨x1, y1, z1, w1⟩ := v1
  obtain ⟨x2, y2, z2, w2⟩ := v2
  simp only [QVector4D.ne, Bool.or_eq_false_iff] at h
  rw [ne_eq_false _ _ h.1.1.1, ne_eq_false _ _ h.1.1.2, ne_eq_false _ _ h.1.2,
    ne_eq_false _ _ h.2]

theorem vector4D_ne_self (v : QVector4D) : v.ne v = v.hasNaN := by
  simp [QVector4D.ne, QVector4D.hasNaN, ne_self]

theorem linear_setGradient_float_eq (m : LinearMaterial) (rect : QRectF) (g : QskGradient) :
    m.setGradient rect g
      = (decide (g.stops ≠ m.m_stops) || decide (g.spread ≠ m.m_spread)
            || m.m_gradientVector.ne (linearGeometry rect g),
          { m_gradientType := m.m_gradientType, m_stops := g.stops, m_spread := g.spread,
            m_gradientVector := linearGeometry rect g }) := by
  obtain ⟨⟨ty, st, sp⟩, v⟩ := m
  have hgeo : QVector4D.create
      (add rect.left (mul g.linearDirection.start.x rect.width))
      (add rect.top (mul g.linearDirection.start.y rect.height))
      (mul g.linearDirection.stop.x rect.width)
      (mul g.linearDirection.stop.y rect.height) = linearGeometry rect g := rfl
  unfold LinearMaterial.setGradient
  simp only [hgeo]
  cases h3 : v.ne (linearGeometry rect g)
  · have hv := vector4D_ne_eq_false _ _ h3
    subst hv
    by_cases h1 : g.stops = st <;> by_cases h2 : g.spread = sp <;> simp [h1, h2, h3]
  · by_cases h1 : g.stops = st <;> by_cases h2 : g.spread = sp <;> simp [h1, h2, h3]

theorem radial_setGradient_float_eq (m : RadialMaterial) (rect : QRectF) (g : QskGradient) :
    m.setGradient rect g
      = (decide (g.stops ≠ m.m_stops) || decide (g.spread ≠ m.m_spread)
            || ((centerGeometry rect g.radialDirection.center).ne m.m_center
                || m.m_radius.ne (radiusGeometry rect g)),
          { m_gradientType := m.m_gradientType, m_stops := g.stops, m_spread := g.spread,
            m_center := centerGeometry rect g.radialDirection.center,
            m_radius := radiusGeometry rect g }) := by
  obtain ⟨⟨ty, st, sp⟩, ce, ra⟩ := m
  have hgeo1 : QVector2D.create
      (add rect.left (mul g.radialDirection.center.x rect.width))
      (add rect.top (mul g.radialDirection.center.y rect.height))
      = centerGeometry rect g.radialDirection.center := rfl
  have hgeo2 : QVector2D.create (mul g.radialDirection.radius rect.width)
      (mul g.radialDirection.radius rect.height) = radiusGeometry rect g := rfl
  unfold RadialMaterial.setGradient
  simp only [hgeo1, hgeo2]
  cases h3 : (centerGeometry rect g.radialDirection.center).ne ce <;>
    cases h4 : ra.ne (radiusGeometry rect g)
  · have hc := vector2D_ne_eq_false _ _ h3
    have hr := vector2D_ne_eq_false _ _ h4
    subst hr
    rw [← hc] at h3 ⊢
    by_cases h1 : g.stops = st <;> by_cases h2 : g.spread = sp <;> simp [h1, h2, h3, h4]
  · by_cases h1 : g.stops = st <;> by_cases h2 : g.spread = sp <;> simp [h1, h2, h3, h4]
  · by_cases h1 : g.stops = st <;> by_cases h2 : g.spread = sp <;> simp [h1, h2, h3, h4]
  · by_cases h1 : g.stops = st <;> by_cases h2 : g.spread = sp <;> simp [h1, h2, h3, h4]

theorem conic_setGradient_float_eq (m : ConicMaterial) (rect : QRectF) (g : QskGradient) :
    m.setGradient rect g
      = (decide (g.stops ≠ m.m_stops) || decide (g.spread ≠ m.m_spread)
            || (centerGeometry rect g.conicDirection.center).ne m.m_center
            || (ne (startGeometry g.conicDirection.startAngle) m.m_start
                || ne (spanGeometry g.conicDirection.spanAngle) m.m_span),
          { m_gradientType := m.m_gradientType, m_stops := g.stops, m_spread := g.spread,
            m_center := centerGeometry rect g.conicDirection.center,
            m_start := startGeometry g.conicDirection.startAngle,
            m_span := spanGeometry g.conicDirection.spanAngle }) := by
  obtain ⟨⟨ty, st, sp⟩, ce, sa, sn⟩ := m
  have hgeo1 : QVector2D.create
      (add rect.left (mul g.conicDirection.center.x rect.width))
      (add rect.top (mul g.conicDirection.center.y rect.height))
      = centerGeometry rect g.conicDirection.center := rfl
  have hgeo2 : (if lt (toFloat (divBy (fmod g.conicDirection.startAngle 360) 360)) (Num.fin 0)
        = true then
      toFloat (add (toFloat (divBy (fmod g.conicDirection.startAngle 360) 360)) (Num.fin 1))
      else toFloat (divBy (fmod g.conicDirection.startAngle 360) 360))
      = startGeometry g.conicDirection.startAngle := rfl
  have hgeo3 : toFloat (divBy (fmod g.conicDirection.spanAngle 360) 360)
      = spanGeometry g.conicDirection.spanAngle := rfl
  unfold ConicMaterial.setGradient
  simp only [hgeo1, hgeo2, hgeo3]
  cases h3 : (centerGeometry rect g.conicDirection.center).ne ce
  · have hc := vector2D_ne_eq_false _ _ h3
    rw [← hc] at h3 ⊢
    cases h4 : ne (startGeometry g.conicDirection.startAngle) sa <;>
      cases h5 : ne (spanGeometry g.conicDirection.spanAngle) sn
    · have hs := ne_eq_false _ _ h4
      have hp := ne_eq_false _ _ h5
      subst hs
      subst hp
      by_cases h1 : g.stops = st <;> by_cases h2 : g.spread = sp <;>
        simp [h1, h2, h3, h4, h5]
    · by_cases h1 : g.stops = st <;> by_cases h2 : g.spread = sp <;>
        simp [h1, h2, h3, h4, h5]
    · by_cases h1 : g.stops = st <;> by_cases h2 : g.spread = sp <;>
        simp [h1, h2, h3, h4, h5]
    · by_cases h1 : g.stops = st <;> by_cases h2 : g.spread = sp <;>
        simp [h1, h2, h3, h4, h5]
  · cases h4 : ne (startGeometry g.conicDirection.startAngle) sa <;>
      cases h5 : ne (spanGeometry g.conicDirection.spanAngle) sn
    · have hs := ne_eq_false _ _ h4
      have hp := ne_eq_false _ _ h5
      subst hs
      subst hp
      by_cases h1 : g.stops = st <;> by_cases h2 : g.spread = sp <;>
        simp [h1, h2, h3, h4, h5]
    · by_cases h1 : g.stops = st <;> by_cases h2 : g.spread = sp <;>
        simp [h1, h2, h3, h4, h5]
    · by_cases h1 : g.stops = st <;> by_cases h2 : g.spread = sp <;>
        simp [h1, h2, h3, h4, h5]
    · by_cases h1 : g.stops = st <;> by_cases h2 : g.spread = sp <;>
        simp [h1, h2, h3, h4, h5]

/-! ### Floating-point arithmetic: claims -/

/-- C6, as the claim states it, fails: for a rect whose left edge is NaN the
second `setGradient` with the same rect and gradient returns true again,
because the NaN component of the stored vector differs from itself. -/
theorem setGradient_nan_second_call :
    ¬ (((LinearMaterial.create.setGradient exampleRectNaN
          (exampleGradientOf GradientType.Linear)).2.setGradient exampleRectNaN
          (exampleGradientOf GradientType.Linear)).1 = false) := by
  decide!

/-- C6, amended: for each material kind, every prior state, every rect and every
gradient, in the floating-point arithmetic of the code: a second
`setGradient` with the same rect and gradient leaves the material as the
first call left it, and it returns true exactly when a component of the
geometry computed from rect and gradient is NaN, so it returns false whenever
no component is NaN; and the first call returns true whenever the prior state
differed in stops, spread or geometry. -/
theorem setGradient_second_call (rect : QRectF) (g : QskGradient) :
    (∀ m : LinearMaterial,
        ((m.setGradient rect g).2.setGradient rect g).2 = (m.setGradient rect g).2
          ∧ ((m.setGradient rect g).2.setGradient rect g).1 = (linearGeometry rect g).hasNaN
          ∧ ((linearGeometry rect g).hasNaN = false →
              ((m.setGradient rect g).2.setGradient rect g).1 = false)
          ∧ ((g.stops ≠ m.m_stops ∨ g.spread ≠ m.m_spread
                ∨ m.m_gradientVector.ne (linearGeometry rect g) = true) →
              (m.setGradient rect g).1 = true))
      ∧ (∀ m : RadialMaterial,
        ((m.setGradient rect g).2.setGradient rect g).2 = (m.setGradient rect g).2
          ∧ ((m.setGradient rect g).2.setGradient rect g).1
              = ((centerGeometry rect g.radialDirection.center).hasNaN
                  || (radiusGeometry rect g).hasNaN)
          ∧ (((centerGeometry rect g.radialDirection.center).hasNaN
                || (radiusGeometry rect g).hasNaN) = false →
              ((m.setGradient rect g).2.setGradient rect g).1 = false)
          ∧ ((g.stops ≠ m.m_stops ∨ g.spread ≠ m.m_spread
                ∨ (centerGeometry rect g.radialDirection.center).ne m.m_center = true
                ∨ m.m_radius.ne (radiusGeometry rect g) = true) →
              (m.setGradient rect g).1 = true))
      ∧ (∀ m : ConicMaterial,
        ((m.setGradient rect g).2.setGradient rect g).2 = (m.setGradient rect g).2
          ∧ ((m.setGradient rect g).2.setGradient rect g).1
              = ((centerGeometry rect g.conicDirection.center).hasNaN
                  || (startGeometry g.conicDirection.startAngle).isNaN
                  || (spanGeometry g.conicDirection.spanAngle).isNaN)
          ∧ (((centerGeometry rect g.conicDirection.center).hasNaN
                || (startGeometry g.conicDirection.startAngle).isNaN
                || (spanGeometry g.conicDirection.spanAngle).isNaN) = false →
              ((m.setGradient rect g).2.setGradient rect g).1 = false)
          ∧ ((g.stops ≠ m.m_stops ∨ g.spread ≠ m.m_spread
                ∨ (centerGeometry rect g.conicDirection.center).ne m.m_center = true
                ∨ ne (startGeometry g.conicDirection.startAngle) m.m_start = true
                ∨ ne (spanGeometry g.conicDirection.spanAngle) m.m_span = true) →
              (m.setGradient rect g).1 = true)) := by
  refine ⟨?_, ?_, ?_⟩
  · intro m
    have h2 : ((m.setGradient rect g).2.setGradient rect g).1
        = (linearGeometry rect g).hasNaN := by
      rw [linear_setGradient_float_eq, linear_setGradient_float_eq]
      simp [vector4D_ne_self]
    refine ⟨?_, h2, ?_, ?_⟩
    · rw [linear_setGradient_float_eq, linear_setGradient_float_eq]
    · intro h
      rw [h2, h]
    · intro h
      rw [linear_setGradient_float_eq]
      simpa [or_assoc] using h
  · intro m
    have h2 : ((m.setGradient rect g).2.setGradient rect g).1
        = ((centerGeometry rect g.radialDirection.center).hasNaN
            || (radiusGeometry rect g).hasNaN) := by
      rw [radial_setGradient_float_eq, radial_setGradient_float_eq]
      simp [vector2D_ne_self]
    refine ⟨?_, h2, ?_, ?_⟩
    · rw [radial_setGradient_float_eq, radial_setGradient_float_eq]
    · intro h
      rw [h2, h]
    · intro h
      rw [radial_setGradient_float_eq]
      simpa [or_assoc] using h
  · intro m
    have h2 : ((m.setGradient rect g).2.setGradient rect g).1
        = ((centerGeometry rect g.conicDirection.center).hasNaN
            || (startGeometry g.conicDirection.startAngle).isNaN
            || (spanGeometry g.conicDirection.spanAngle).isNaN) := by
      rw [conic_setGradient_float_eq, conic_setGradient_float_eq]
      simp [vector2D_ne_self, ne_self, Bool.or_assoc]
    refine ⟨?_, h2, ?_, ?_⟩
    · rw [conic_setGradient_float_eq, conic_setGradient_float_eq]
    · intro h
      rw [h2, h]
    · intro h
      rw [conic_setGradient_float_eq]
      simpa [or_assoc] using h

/-- Witness for C6, amended: on the rect (0, 0, 100, 50) no geometry component
of the example gradient is NaN, a fresh linear material has other stops, the
first call returns true and the second false. -/
theorem setGradient_second_call_witness :
    (linearGeometry (exampleRect (Num.fin 100)) (exampleGradientOf GradientType.Linear)).hasNaN
        = false
      ∧ (LinearMaterial.create.setGradient (exampleRect (Num.fin 100))
          (exampleGradientOf GradientType.Linear)).1 = true
      ∧ ((LinearMaterial.create.setGradient (exampleRect (Num.fin 100))
          (exampleGradientOf GradientType.Linear)).2.setGradient (exampleRect (Num.fin 100))
          (exampleGradientOf GradientType.Linear)).1 = false :=
  ⟨by decide!,
    ((setGradient_second_call (exampleRect (Num.fin 100))
        (exampleGradientOf GradientType.Linear)).1 LinearMaterial.create).2.2.2
      (Or.inl (by decide)),
    ((setGradient_second_call (exampleRect (Num.fin 100))
        (exampleGradientOf GradientType.Linear)).1 LinearMaterial.create).2.2.1 (by decide!)⟩

theorem mul_exact (a b : ℚ) (h : exact (a * b)) : mul (Num.fin a) (Num.fin b) = Num.fin (a * b) :=
  h.1

theorem add_exact (a b : ℚ) (h : exact (a + b)) : add (Num.fin a) (Num.fin b) = Num.fin (a + b) :=
  h.1

theorem toFloat_exact (a : ℚ) (h : exact a) : toFloat (Num.fin a) = Num.fin a :=
  h.2

/-- C7, as the claim states it, fails: for the rect (0, 0, 16777217, 50), start
(0, 0) and delta (1, 0) the third component of the stored vector is the
float 16777216, not 1 * 16777217. -/
theorem linear_setGradient_vector_rounds :
    (LinearMaterial.create.setGradient (exampleRect (Num.fin 16777217))
        (exampleGradientOf GradientType.Linear)).2.m_gradientVector
      ≠ { x := Num.fin (0 + 0 * 16777217), y := Num.fin (0 + 0 * 50),
          z := Num.fin (1 * 16777217), w := Num.fin (0 * 50) } := by
  decide!

/-- C7, amended: linear geometry scaling in the floating-point arithmetic of the
code. For every material state, rect and gradient `LinearMaterial::setGradient`
stores the vector (left + sx * width, top + sy * height, dx * width,
dy * height), where (sx, sy) is the start and (dx, dy) the delta, every
product and sum computed in doubles and every component stored into a float:
the start is scaled and offset by the rect origin, the delta is scaled only.
For finite numbers whose products and sums are numbers that a double and a
float hold exactly, the stored vector is exactly that vector; in particular
the rect (0, 0, 100, 50) with start (0, 0) and delta (1, 0) gives
(0, 0, 100, 0). -/
theorem linear_setGradient_vector_float (m : LinearMaterial) (type : GradientType)
    (stops : QskGradientStops) (spread : Spread) (rd : QskRadialDirection)
    (cd : QskConicDirection) :
    (∀ (left top width height sx sy dx dy : Num),
        (m.setGradient ⟨left, top, width, height⟩
          ⟨type, stops, spread, ⟨⟨sx, sy⟩, ⟨dx, dy⟩⟩, rd, cd⟩).2.m_gradientVector
          = { x := toFloat (add left (mul sx width)), y := toFloat (add top (mul sy height)),
              z := toFloat (mul dx width), w := toFloat (mul dy height) })
      ∧ (∀ (left top width height sx sy dx dy : ℚ),
        exact (sx * width) → exact (left + sx * width) →
        exact (sy * height) → exact (top + sy * height) →
        exact (dx * width) → exact (dy * height) →
        (m.setGradient ⟨Num.fin left, Num.fin top, Num.fin width, Num.fin height⟩
          ⟨type, stops, spread,
            ⟨⟨Num.fin sx, Num.fin sy⟩, ⟨Num.fin dx, Num.fin dy⟩⟩, rd, cd⟩).2.m_gradientVector
          = { x := Num.fin (left + sx * width), y := Num.fin (top + sy * height),
              z := Num.fin (dx * width), w := Num.fin (dy * height) })
      ∧ (m.setGradient ⟨Num.fin 0, Num.fin 0, Num.fin 100, Num.fin 50⟩
          ⟨type, stops, spread,
            ⟨⟨Num.fin 0, Num.fin 0⟩, ⟨Num.fin 1, Num.fin 0⟩⟩, rd, cd⟩).2.m_gradientVector
          = { x := Num.fin 0, y := Num.fin 0, z := Num.fin 100, w := Num.fin 0 } := by
  have hgeneral : ∀ (left top width height sx sy dx dy : Num),
      (m.setGradient ⟨left, top, width, height⟩
        ⟨type, stops, spread, ⟨⟨sx, sy⟩, ⟨dx, dy⟩⟩, rd, cd⟩).2.m_gradientVector
        = { x := toFloat (add left (mul sx width)), y := toFloat (add top (mul sy height)),
            z := toFloat (mul dx width), w := toFloat (mul dy height) } := by
    intro left top width height sx sy dx dy
    rw [linear_setGradient_float_eq]
    rfl
  refine ⟨hgeneral, ?_, ?_⟩
  · intro left top width height sx sy dx dy h1 h2 h3 h4 h5 h6
    rw [hgeneral, mul_exact _ _ h1, add_exact _ _ h2, toFloat_exact _ h2, mul_exact _ _ h3,
      add_exact _ _ h4, toFloat_exact _ h4, mul_exact _ _ h5, toFloat_exact _ h5,
      mul_exact _ _ h6, toFloat_exact _ h6]
  · rw [hgeneral]
    decide!

/-- Witness for C7, amended: the products and sums of the rect (0, 0, 100, 50)
with start (0, 0) and delta (1, 0) are held exactly, and the stored vector is
(0, 0, 100, 0). -/
theorem linear_setGradient_vector_float_witness :
    exact (0 * 100) ∧ exact (0 + 0 * 100) ∧ exact (0 * 50) ∧ exact (0 + 0 * 50)
      ∧ exact (1 * 100)
      ∧ (LinearMaterial.create.setGradient ⟨Num.fin 0, Num.fin 0, Num.fin 100, Num.fin 50⟩
          (exampleGradientOf GradientType.Linear)).2.m_gradientVector
          = { x := Num.fin (0 + 0 * 100), y := Num.fin (0 + 0 * 50),
              z := Num.fin (1 * 100), w := Num.fin (0 * 50) } :=
  ⟨by decide!, by decide!, by decide!, by decide!, by decide!,
    (linear_setGradient_vector_float LinearMaterial.create GradientType.Linear
      [⟨0, 255⟩, ⟨1, 0⟩] Spread.PadSpread exampleRadial
      (exampleConicDirection (Num.fin 360))).2.1 0 0 100 50 0 0 1 0
      (by decide!) (by decide!) (by decide!) (by decide!) (by decide!) (by decide!)⟩

/-- C8, as the claim states it, fails: for the rect (0, 0, 16777217, 50) and the
radius 1 the first component of the stored radius is the float 16777216, not
1 * 16777217. -/
theorem radial_setGradient_geometry_rounds :
    (RadialMaterial.create.setGradient (exampleRect (Num.fin 16777217))
        (exampleGradientOf GradientType.Radial)).2.m_radius
      ≠ { x := Num.fin (1 * 16777217), y := Num.fin (1 * 50) } := by
  decide!

/-- C8, amended: radial geometry scaling in the floating-point arithmetic of the
code. For every material state, rect and gradient `RadialMaterial::setGradient`
stores the center (left + cx * width, top + cy * height) and the radius
(r * width, r * height), where (cx, cy) is the fractional center and r the
fractional radius, every product and sum computed in doubles and every
component stored into a float: the two radii are scaled independently by the
width and the height. For finite numbers whose products and sums are numbers
that a double and a float hold exactly, the stored center and radius are
exactly these. -/
theorem radial_setGradient_geometry_float (m : RadialMaterial) (type : GradientType)
    (stops : QskGradientStops) (spread : Spread) (ld : QskLinearDirection)
    (cd : QskConicDirection) :
    (∀ (left top width height cx cy r : Num),
        (m.setGradient ⟨left, top, width, height⟩
            ⟨type, stops, spread, ld, ⟨⟨cx, cy⟩, r⟩, cd⟩).2.m_center
            = { x := toFloat (add left (mul cx width)), y := toFloat (add top (mul cy height)) }
          ∧ (m.setGradient ⟨left, top, width, height⟩
            ⟨type, stops, spread, ld, ⟨⟨cx, cy⟩, r⟩, cd⟩).2.m_radius
            = { x := toFloat (mul r width), y := toFloat (mul r height) })
      ∧ (∀ (left top width height cx cy r : ℚ),
        exact (cx * width) → exact (left + cx * width) →
        exact (cy * height) → exact (top + cy * height) →
        exact (r * width) → exact (r * height) →
        (m.setGradient ⟨Num.fin left, Num.fin top, Num.fin width, Num.fin height⟩
            ⟨type, stops, spread, ld, ⟨⟨Num.fin cx, Num.fin cy⟩, Num.fin r⟩, cd⟩).2.m_center
            = { x := Num.fin (left + cx * width), y := Num.fin (top + cy * height) }
          ∧ (m.setGradient ⟨Num.fin left, Num.fin top, Num.fin width, Num.fin height⟩
            ⟨type, stops, spread, ld, ⟨⟨Num.fin cx, Num.fin cy⟩, Num.fin r⟩, cd⟩).2.m_radius
            = { x := Num.fin (r * width), y := Num.fin (r * height) }) := by
  have hgeneral : ∀ (left top width height cx cy r : Num),
      (m.setGradient ⟨left, top, width, height⟩
          ⟨type, stops, spread, ld, ⟨⟨cx, cy⟩, r⟩, cd⟩).2.m_center
          = { x := toFloat (add left (mul cx width)), y := toFloat (add top (mul cy height)) }
        ∧ (m.setGradient ⟨left, top, width, height⟩
          ⟨type, stops, spread, ld, ⟨⟨cx, cy⟩, r⟩, cd⟩).2.m_radius
          = { x := toFloat (mul r width), y := toFloat (mul r height) } := by
    intro left top width height cx cy r
    rw [radial_setGradient_float_eq]
    exact ⟨rfl, rfl⟩
  refine ⟨hgeneral, ?_⟩
  intro left top width height cx cy r h1 h2 h3 h4 h5 h6
  rw [(hgeneral _ _ _ _ _ _ _).1, (hgeneral _ _ _ _ _ _ _).2, mul_exact _ _ h1,
    add_exact _ _ h2, toFloat_exact _ h2, mul_exact _ _ h3, add_exact _ _ h4,
    toFloat_exact _ h4, mul_exact _ _ h5, toFloat_exact _ h5, mul_exact _ _ h6,
    toFloat_exact _ h6]
  exact ⟨rfl, rfl⟩

/-- Witness for C8, amended: for the rect (10, 20, 100, 50), the center
(1/2, 1/2) and the radius 1/2 every product and sum is held exactly; the
stored center is (60, 45) and the stored radius (50, 25). -/
theorem radial_setGradient_geometry_float_witness :
    exact (1 / 2 * 100) ∧ exact (10 + 1 / 2 * 100) ∧ exact (1 / 2 * 50)
      ∧ exact (20 + 1 / 2 * 50)
      ∧ (RadialMaterial.create.setGradient ⟨Num.fin 10, Num.fin 20, Num.fin 100, Num.fin 50⟩
          ⟨GradientType.Radial, [], Spread.PadSpread, exampleLinear,
            ⟨⟨Num.fin (1 / 2), Num.fin (1 / 2)⟩, Num.fin (1 / 2)⟩,
            exampleConicDirection (Num.fin 360)⟩).2.m_radius
          = { x := Num.fin (1 / 2 * 100), y := Num.fin (1 / 2 * 50) } :=
  ⟨by decide!, by decide!, by decide!, by decide!,
    ((radial_setGradient_geometry_float RadialMaterial.create GradientType.Radial
      [] Spread.PadSpread exampleLinear (exampleConicDirection (Num.fin 360))).2
      10 20 100 50 (1 / 2) (1 / 2) (1 / 2)
      (by decide!) (by decide!) (by decide!) (by decide!) (by decide!) (by decide!)).2⟩

/-- The span fraction of a finite span angle `s`, where `y` is the quotient
fmod(s, 360) / 360 as the double holds it: finite, between -1 and 1, never on
the other side of zero than the angle, and zero exactly when `y` is at most
2 ^ -150, half the smallest positive float, in magnitude; which it is not when
the exact quotient is at least 2 ^ -149 in magnitude. -/
theorem spanGeometry_fin (s : ℚ) :
    ∃ y r, round binary64 (Qsk.fmod s 360 / 360) = Num.fin y
      ∧ spanGeometry (Num.fin s) = Num.fin r ∧ -1 ≤ r ∧ r ≤ 1
      ∧ (s < 0 → r ≤ 0) ∧ (0 < s → 0 ≤ r)
      ∧ (r = 0 ↔ |y| ≤ pow2 (-150))
      ∧ (pow2 (-149) ≤ |Qsk.fmod s 360 / 360| → pow2 (-150) < |y|) := by
  have hb := fmod_div_bounds s
  have hx : |Qsk.fmod s 360 / 360| ≤ 1 := abs_le.2 ⟨le_of_lt hb.1, le_of_lt hb.2⟩
  obtain ⟨y, hy, hy1, hypos, hyneg, hylow⟩ :=
    round_unit binary64 (by decide) (by decide) (by decide) (Qsk.fmod s 360 / 360) hx
  obtain ⟨z, hz, hz1, hzpos, hzneg, _⟩ :=
    round_unit binary32 (by decide) (by decide) (by decide) y hy1
  have hspan : spanGeometry (Num.fin s) = Num.fin z := by
    show toFloat (round binary64 (Qsk.fmod s 360 / 360)) = Num.fin z
    rw [hy]
    exact hz
  have hzabs := abs_le.1 hz1
  have hneg : s < 0 → z ≤ 0 := fun h =>
    hzneg (hyneg (fmod_div_nonpos s (le_of_lt h)))
  have hpos : 0 < s → 0 ≤ z := fun h =>
    hzpos (hypos (fmod_div_nonneg s (le_of_lt h)))
  have hzero : z = 0 ↔ |y| ≤ pow2 (-150) := by
    have h := round_eq_zero_iff binary32 (by decide) y
    rw [hz] at h
    constructor
    · intro h0
      exact h.1 (by rw [h0])
    · intro h0
      exact Num.fin.inj (h.2 h0)
  refine ⟨y, z, hy, hspan, hzabs.1, hzabs.2, hneg, hpos, hzero, ?_⟩
  intro hlow
  have h1 : pow2 (-149) ≤ |y| := hylow (-149) (by decide) hlow
  have h2 : pow2 (-150) < pow2 (-149) := by
    rw [pow2_eq, pow2_eq]
    exact zpow_lt_zpow_right₀ (by norm_num) (by norm_num)
  exact lt_of_lt_of_le h2 h1

theorem conic_setGradient_float_span (m : ConicMaterial) (rect : QRectF) (g : QskGradient) :
    (m.setGradient rect g).2.m_span = spanGeometry g.conicDirection.spanAngle := by
  rw [conic_setGradient_float_eq]

/-- C10, as the claim states it, fails: a span angle of 360 degrees is positive,
yet `ConicMaterial::setGradient` stores the span 0, which is not a positive
fraction. -/
theorem conic_setGradient_span_zero :
    ¬ (lt (Num.fin 0) (exampleGradientOf GradientType.Conic).conicDirection.spanAngle = true →
        lt (Num.fin 0) (ConicMaterial.create.setGradient (exampleRect (Num.fin 100))
          (exampleGradientOf GradientType.Conic)).2.m_span = true) := by
  decide!

/-- C10, amended: in the floating-point arithmetic of the code, for every
material state, rect and span angle `s` (NaN and the infinities included)
`ConicMaterial::setGradient` stores span = fmod(s, 360) / 360, the truncated
remainder divided in doubles and stored into the float, and never shifts it
into [0, 1). For every finite `s`, with `y` the quotient as the double holds
it, the stored span is a finite number between -1 and 1; a negative span
angle is never stored as a positive fraction and a positive one never as a
negative fraction; the stored fraction is zero exactly when `y` is at most
2 ^ -150, half the smallest positive float, in magnitude, and otherwise it is
negative for a negative and positive for a positive span angle; and `y` is
above 2 ^ -150 in magnitude whenever the exact fraction fmod(s, 360) / 360 is
at least 2 ^ -149 in magnitude. -/
theorem conic_setGradient_span_float (m : ConicMaterial) (rect : QRectF)
    (type : GradientType) (stops : QskGradientStops) (spread : Spread)
    (ld : QskLinearDirection) (rd : QskRadialDirection) (center : QPointF) (start : Num) :
    (∀ s : Num,
        (m.setGradient rect ⟨type, stops, spread, ld, rd, ⟨center, start, s⟩⟩).2.m_span
          = toFloat (divBy (fmod s 360) 360))
      ∧ (∀ s : ℚ, ∃ y r,
        divBy (fmod (Num.fin s) 360) 360 = Num.fin y
          ∧ round binary64 (Qsk.fmod s 360 / 360) = Num.fin y
          ∧ (m.setGradient rect
            ⟨type, stops, spread, ld, rd, ⟨center, start, Num.fin s⟩⟩).2.m_span = Num.fin r
          ∧ (∃ n : ℤ, s = 360 * (n : ℚ) + Qsk.fmod s 360)
          ∧ -1 ≤ r ∧ r ≤ 1
          ∧ (s < 0 → r ≤ 0) ∧ (0 < s → 0 ≤ r)
          ∧ (r = 0 ↔ |y| ≤ pow2 (-150))
          ∧ (pow2 (-150) < |y| → (s < 0 → r < 0) ∧ (0 < s → 0 < r))
          ∧ (pow2 (-149) ≤ |Qsk.fmod s 360 / 360| → pow2 (-150) < |y|)) := by
  constructor
  · intro s
    rw [conic_setGradient_float_span]
    rfl
  · intro s
    obtain ⟨y, r, hy, hr, h1, h2, h3, h4, h5, h6⟩ := spanGeometry_fin s
    refine ⟨y, r, hy, hy, ?_, ⟨truncate (s / 360), ?_⟩, h1, h2, h3, h4, h5, ?_, h6⟩
    · rw [conic_setGradient_float_span]
      exact hr
    · unfold Qsk.fmod
      ring
    · intro hbig
      have hr0 : r ≠ 0 := fun h0 => absurd (h5.1 h0) (not_le.2 hbig)
      exact ⟨fun h => lt_of_le_of_ne (h3 h) hr0, fun h => lt_of_le_of_ne (h4 h) (Ne.symm hr0)⟩

/-- Witness for C10, amended: the fraction of the span angle -90 degrees is
1/4 in magnitude, which is not below 2 ^ -149, and the stored span is the
negative fraction -1/4. -/
theorem conic_setGradient_span_float_witness :
    pow2 (-149) ≤ |Qsk.fmod (-90) 360 / 360| ∧ (-90 : ℚ) < 0
      ∧ (ConicMaterial.create.setGradient (exampleRect (Num.fin 100))
          ⟨GradientType.Conic, [], Spread.PadSpread, exampleLinear, exampleRadial,
            ⟨⟨Num.fin 0, Num.fin 0⟩, Num.fin 0, Num.fin (-90)⟩⟩).2.m_span = Num.fin (-1 / 4)
      ∧ ∃ r, (ConicMaterial.create.setGradient (exampleRect (Num.fin 100))
          ⟨GradientType.Conic, [], Spread.PadSpread, exampleLinear, exampleRadial,
            ⟨⟨Num.fin 0, Num.fin 0⟩, Num.fin 0, Num.fin (-90)⟩⟩).2.m_span = Num.fin r
        ∧ r < 0 := by
  have hlow : pow2 (-149) ≤ |Qsk.fmod (-90) 360 / 360| := by
    rw [fmod_neg_ninety]
    decide!
  obtain ⟨_, r, _, _, hr, _, _, _, _, _, _, hstrict, hbig⟩ :=
    (conic_setGradient_span_float ConicMaterial.create (exampleRect (Num.fin 100))
      GradientType.Conic [] Spread.PadSpread exampleLinear exampleRadial
      ⟨Num.fin 0, Num.fin 0⟩ (Num.fin 0)).2 (-90)
  exact ⟨hlow, by norm_num, by decide!, r, hr, (hstrict (hbig hlow)).1 (by norm_num)⟩

theorem spanGeometry_multiple (k : ℤ) : spanGeometry (Num.fin (360 * (k : ℚ))) = Num.fin 0 := by
  show toFloat (round binary64 (Qsk.fmod (360 * (k : ℚ)) 360 / 360)) = Num.fin 0
  rw [fmod_multiple, zero_div, round_zero]
  exact round_zero binary32

/-- C18, as the claim states it, fails: for the span angle 360 - 2 ^ -17
degrees `ConicMaterial::setGradient` stores the span 1, which is not below 1
(the quotient is rounded up when it is stored into the float). -/
theorem conic_setGradient_span_one :
    ¬ (lt (Num.fin (-1)) (ConicMaterial.create.setGradient (exampleRect (Num.fin 100))
          (exampleGradient GradientType.Conic exampleLinear exampleRadial
            (exampleConicDirection (Num.fin (360 - 1 / 2 ^ 17))))).2.m_span = true
        ∧ lt (ConicMaterial.create.setGradient (exampleRect (Num.fin 100))
          (exampleGradient GradientType.Conic exampleLinear exampleRadial
            (exampleConicDirection (Num.fin (360 - 1 / 2 ^ 17))))).2.m_span (Num.fin 1)
          = true) := by
  decide!

/-- C18, amended: the full-turn span edge in the floating-point arithmetic of
the code. For every conic gradient whose span angle is a whole multiple of
360 degrees, 360 itself included, and every prior material state,
`ConicMaterial::setGradient` stores the span fraction 0; a freshly constructed
`ConicMaterial` holds the span 1; so the call on a fresh material changes the
stored span from 1 to 0 and returns true; for every finite span angle the
stored span is a finite number `r` with -1 ≤ r ≤ 1; and for a NaN or an
infinite span angle it is NaN. -/
theorem conic_setGradient_full_turn_float (rect : QRectF) (type : GradientType)
    (stops : QskGradientStops) (spread : Spread) (ld : QskLinearDirection)
    (rd : QskRadialDirection) (center : QPointF) (start : Num) :
    (∀ (k : ℤ) (m : ConicMaterial),
        (m.setGradient rect
          ⟨type, stops, spread, ld, rd, ⟨center, start, Num.fin (360 * (k : ℚ))⟩⟩).2.m_span
          = Num.fin 0)
      ∧ (∀ m : ConicMaterial,
        (m.setGradient rect
          ⟨type, stops, spread, ld, rd, ⟨center, start, Num.fin 360⟩⟩).2.m_span = Num.fin 0)
      ∧ ConicMaterial.create.m_span = Num.fin 1
      ∧ (∀ k : ℤ,
        (ConicMaterial.create.setGradient rect
          ⟨type, stops, spread, ld, rd, ⟨center, start, Num.fin (360 * (k : ℚ))⟩⟩).1 = true)
      ∧ (∀ (s : ℚ) (m : ConicMaterial), ∃ r,
        (m.setGradient rect
          ⟨type, stops, spread, ld, rd, ⟨center, start, Num.fin s⟩⟩).2.m_span = Num.fin r
          ∧ -1 ≤ r ∧ r ≤ 1)
      ∧ (∀ (s : Num) (m : ConicMaterial), (∀ q, s ≠ Num.fin q) →
        (m.setGradient rect
          ⟨type, stops, spread, ld, rd, ⟨center, start, s⟩⟩).2.m_span = Num.nan) := by
  have hzero : ∀ (k : ℤ) (m : ConicMaterial),
      (m.setGradient rect
        ⟨type, stops, spread, ld, rd, ⟨center, start, Num.fin (360 * (k : ℚ))⟩⟩).2.m_span
        = Num.fin 0 := by
    intro k m
    rw [conic_setGradient_float_span]
    exact spanGeometry_multiple k
  refine ⟨hzero, ?_, rfl, ?_, ?_, ?_⟩
  · intro m
    have := hzero 1 m
    simpa using this
  · intro k
    rw [conic_setGradient_float_eq]
    have hspan : spanGeometry (Num.fin (360 * (k : ℚ))) = Num.fin 0 := spanGeometry_multiple k
    have hne : ne (Num.fin 0) ConicMaterial.create.m_span = true := by decide
    simp only [hspan, hne, Bool.or_true]
  · intro s m
    obtain ⟨_, r, _, hr, h1, h2, _⟩ := spanGeometry_fin s
    exact ⟨r, by rw [conic_setGradient_float_span]; exact hr, h1, h2⟩
  · intro s m hs
    rw [conic_setGradient_float_span]
    cases s with
    | nan => rfl
    | inf b => rfl
    | fin q => exact absurd rfl (hs q)

/-- Witness for C18, amended: the span angle -720 is a whole multiple of 360 and
is stored as 0, and a span angle that is an infinity, which is not a finite
number, is stored as NaN. -/
theorem conic_setGradient_full_turn_float_witness :
    (ConicMaterial.create.setGradient (exampleRect (Num.fin 100))
        (exampleGradient GradientType.Conic exampleLinear exampleRadial
          (exampleConicDirection (Num.fin (360 * ((-2 : ℤ) : ℚ)))))).2.m_span = Num.fin 0
      ∧ (∀ q, Num.inf false ≠ Num.fin q)
      ∧ (ConicMaterial.create.setGradient (exampleRect (Num.fin 100))
        (exampleGradient GradientType.Conic exampleLinear exampleRadial
          (exampleConicDirection (Num.inf false)))).2.m_span = Num.nan :=
  ⟨(conic_setGradient_full_turn_float (exampleRect (Num.fin 100)) GradientType.Conic
      [⟨0, 255⟩, ⟨1, 0⟩] Spread.PadSpread exampleLinear exampleRadial
      ⟨Num.fin 0, Num.fin 0⟩ (Num.fin 0)).1 (-2) ConicMaterial.create,
    fun _ h => Num.noConfusion h,
    (conic_setGradient_full_turn_float (exampleRect (Num.fin 100)) GradientType.Conic
      [⟨0, 255⟩, ⟨1, 0⟩] Spread.PadSpread exampleLinear exampleRadial
      ⟨Num.fin 0, Num.fin 0⟩ (Num.fin 0)).2.2.2.2.2 (Num.inf false) ConicMaterial.create
      (fun _ h => Num.noConfusion h)⟩

end Fp

end Qsk
